import Mathlib

/-!
Shallow embedding of `src/PopulationSimulation.py` (agent-based demographic
simulator).  Each Python dict record becomes a Lean structure; the shared
`random` module is modelled as an explicit entropy state threaded through the
stateful passes: `random.random()` draws from a stream of rationals in [0,1),
`random.randint(a,b)` draws from a stream of naturals reduced into [a,b], and
`random.shuffle` draws a permutation of indices from a stream of index lists
(applied only when it is a genuine permutation, so a shuffle always returns a
rearrangement of its input, as in Python).  Fallible Python code (exceptions:
`StopIteration` from `next`, `ValueError`/`IndexError` while loading) is
modelled with `Option`.
-/

/-- One individual, mirroring the Python dict
`{"id", "sex", "age", "alive", "health", "fertility", "partner_id",
"children_count"}`.  All numeric fields are Python ints (`alive` and
`fertility` are the ints 0/1, `partner_id` is `-1` when single). -/
structure Agent where
  id : Int
  sex : String
  age : Int
  alive : Int
  health : Int
  fertility : Int
  partner_id : Int
  children_count : Int
deriving DecidableEq, Repr

instance : Inhabited Agent := ⟨⟨0, "M", 0, 0, 0, 0, 0, 0⟩⟩

/-- Explicit model of the `random` module's ambient state. -/
structure RandState where
  floats : List Rat
  ints : List Nat
  perms : List (List Nat)
deriving DecidableEq, Repr

/-- Model of `random.random()`: next float from the stream. -/
def nextFloat (r : RandState) : Rat × RandState :=
  (r.floats.headD 0, { r with floats := r.floats.tail })

/-- Model of `random.randint(lo, hi)`: next integer draw, reduced into
`[lo, hi]`. -/
def nextInt (lo hi : Int) (r : RandState) : Int × RandState :=
  (lo + (r.ints.headD 0 : Int) % (hi + 1 - lo), { r with ints := r.ints.tail })

/-- Reorder `l` by the index list `p` when `p` is a permutation of
`0, ..., l.length - 1`; otherwise leave `l` unchanged. -/
def applyPerm (p : List Nat) (l : List Agent) : List Agent :=
  if p.Perm (List.range l.length) then p.map (fun i => l.getD i default) else l

/-- Model of `random.shuffle(l)`: apply the next permutation from the stream. -/
def shuffle (l : List Agent) (r : RandState) : List Agent × RandState :=
  (applyPerm (r.perms.headD []) l, { r with perms := r.perms.tail })

/-- `get_single_people(population)`: living singles partitioned by sex. -/
def get_single_people (population : List Agent) : List Agent × List Agent :=
  (population.filter (fun p => p.alive = 1 ∧ p.partner_id = -1 ∧ p.sex = "M"),
   population.filter (fun p => p.alive = 1 ∧ p.partner_id = -1 ∧ p.sex = "F"))

/-- `pair_people(singleMen, singleWomen)`: shuffle both lists, then pair by
position up to the length of the shorter list. -/
def pair_people (singleMen singleWomen : List Agent) (r : RandState) :
    List (Agent × Agent) × RandState :=
  let (ms, r1) := shuffle singleMen r
  let (ws, r2) := shuffle singleWomen r1
  (ms.zip ws, r2)

/-- Overwrite the `partner_id` of the agent whose `id` is `targetId`
(Python mutates that dict in place; with unique ids this map is the
functional image of that mutation). -/
def setPartner (population : List Agent) (targetId v : Int) : List Agent :=
  population.map (fun p => if p.id = targetId then { p with partner_id := v } else p)

/-- `apply_pairs(pairs)`: for each pair set each side's `partner_id` to the
other's `id`, in order. -/
def apply_pairs (population : List Agent) (pairs : List (Agent × Agent)) :
    List Agent :=
  pairs.foldl (fun acc mw => setPartner (setPartner acc mw.1.id mw.2.id) mw.2.id mw.1.id)
    population

/-- Recursion core of `get_all_couples`: walk the table, and for every agent
with a partner whose id is unvisited, look the partner up by id in the full
table (`next(x for x in population if ...)`; `none` models the
`StopIteration` raised when no agent matches). -/
def getAllCouplesAux (population : List Agent) :
    List Agent → List Int → Option (List (Agent × Agent))
  | [], _ => some []
  | p :: ps, visited =>
    if p.partner_id ≠ -1 ∧ p.id ∉ visited then
      match population.find? (fun x => x.id = p.partner_id) with
      | none => none
      | some partner =>
        match getAllCouplesAux population ps (p.id :: partner.id :: visited) with
        | none => none
        | some rest => some ((p, partner) :: rest)
    else getAllCouplesAux population ps visited

/-- `get_all_couples(population)`. -/
def get_all_couples (population : List Agent) : Option (List (Agent × Agent)) :=
  getAllCouplesAux population population []

/-- `max(p["id"] for p in population)`: `none` models the `ValueError`
raised on an empty table. -/
def maxId (population : List Agent) : Option Int :=
  (population.map Agent.id).max?

/-- Add 1 to the `children_count` of the agent whose `id` is `targetId`
(functional image of `d["children_count"] += 1` on the shared dict). -/
def bumpChildren (population : List Agent) (targetId : Int) : List Agent :=
  population.map
    (fun p => if p.id = targetId then { p with children_count := p.children_count + 1 } else p)

/-- Loop state of `reproduce`: the (mutated) table, the `new_children`
accumulator, the local `next_id` counter and the entropy state. -/
structure RepState where
  pop : List Agent
  children : List Agent
  nextId : Int
  rand : RandState

/-- Body of `reproduce`'s `for man, woman in get_all_couples:` loop for one
couple.  Eligibility reads the couple's `alive`/`fertility` fields (never
written inside the loop, so the values captured at couple-extraction time are
the live ones); the counter bumps go to the shared table by id. -/
def reproduceStep (s : RepState) (mw : Agent × Agent) : RepState :=
  if mw.1.alive = 1 ∧ mw.2.alive = 1 then
    if mw.1.fertility = 1 ∧ mw.2.fertility = 1 then
      let (u, r1) := nextFloat s.rand
      if u < 1/2 then
        let (b, r2) := nextInt 0 1 r1
        let sx := if b = 1 then "M" else "F"
        let (h, r3) := nextInt 70 100 r2
        let child : Agent :=
          { id := s.nextId, sex := sx, age := 0, alive := 1, health := h,
            fertility := 0, partner_id := -1, children_count := 0 }
        { pop := bumpChildren (bumpChildren s.pop mw.1.id) mw.2.id,
          children := s.children ++ [child],
          nextId := s.nextId + 1, rand := r3 }
      else { s with rand := r1 }
    else s
  else s

/-- `reproduce(population, get_all_couples)`: compute `next_id` once from the
current maximum id, process every couple, then append all new children. -/
def reproduce (population : List Agent) (couples : List (Agent × Agent))
    (r : RandState) : Option (List Agent × RandState) :=
  match maxId population with
  | none => none
  | some m =>
    let s := couples.foldl reproduceStep ⟨population, [], m + 1, r⟩
    some (s.pop ++ s.children, s.rand)

/-- `aging_update(population)`: only the living age, by exactly 5. -/
def aging_update (population : List Agent) : List Agent :=
  population.map (fun p => if p.alive = 1 then { p with age := p.age + 5 } else p)

/-- The `if age < 15 and age > 1: ... elif ... elif age >= 85:` chain of
`death(population)`'s loop body, applied to the (possibly already updated)
record; each taken branch consumes one `random.random()` draw. -/
def deathChain (p : Agent) (r : RandState) : Agent × RandState :=
  if p.age < 15 ∧ p.age > 1 then
    let (u, r2) := nextFloat r
    (if u < 1/100 then { p with alive := 0 } else p, r2)
  else if p.age < 40 ∧ p.age > 15 then
    let (u, r2) := nextFloat r
    (if u < 5/1000 then { p with alive := 0 } else p, r2)
  else if p.age < 55 ∧ p.age > 40 then
    let (u, r2) := nextFloat r
    (if u < 2/100 then { p with alive := 0 } else p, r2)
  else if p.age < 70 ∧ p.age > 55 then
    let (u, r2) := nextFloat r
    (if u < 5/100 then { p with alive := 0 } else p, r2)
  else if p.age < 85 ∧ p.age > 70 then
    let (u, r2) := nextFloat r
    (if u < 15/100 then { p with alive := 0 } else p, r2)
  else if p.age ≥ 85 then
    let (u, r2) := nextFloat r
    (if u < 35/100 then { p with alive := 0 } else p, r2)
  else (p, r)

/-- One agent's pass through `death(population)`'s loop body: a first,
stand-alone `if` for `age < 1`, then the separate `if`/`elif` chain above
(running on the same dict, so it sees any update made by the first `if`). -/
def deathOne (p : Agent) (r : RandState) : Agent × RandState :=
  if p.age < 1 then
    let (u, r') := nextFloat r
    deathChain (if u < 5/100 then { p with alive := 0 } else p) r'
  else deathChain p r

/-- `death(population)`: the mortality pass, threading the entropy state
through the table in order. -/
def death : List Agent → RandState → List Agent × RandState
  | [], r => ([], r)
  | p :: ps, r =>
    let (p', r1) := deathOne p r
    let (ps', r2) := death ps r1
    (p' :: ps', r2)

/-- `census(population)`: number of agents with `alive = 1`. -/
def census (population : List Agent) : Nat :=
  population.countP (fun p => p.alive = 1)

/-- `fertility_update(population)`, one agent: a first `if` turning on
fertility past age 18, then a second independent `if` turning it off past
age 65. -/
def fertilityUpdateAgent (p : Agent) : Agent :=
  let p1 := if p.age > 18 ∧ p.fertility = 0 then { p with fertility := 1 } else p
  if p1.age > 65 then { p1 with fertility := 0 } else p1

/-- `fertility_update(population)`. -/
def fertility_update (population : List Agent) : List Agent :=
  population.map fertilityUpdateAgent

/-- Decimal digit character, as produced by Python's `str` on an int. -/
def digitChar : Nat → Char
  | 0 => '0' | 1 => '1' | 2 => '2' | 3 => '3' | 4 => '4'
  | 5 => '5' | 6 => '6' | 7 => '7' | 8 => '8' | _ => '9'

/-- Decimal representation of a natural number (Python `str`). -/
def natToChars (n : Nat) : List Char :=
  if _h : n < 10 then [digitChar n]
  else natToChars (n / 10) ++ [digitChar (n % 10)]
decreasing_by exact Nat.div_lt_self (by omega) (by omega)

/-- Textual form of a Python int, as written by the f-string in
`save_population`. -/
def intToChars (i : Int) : List Char :=
  if i < 0 then '-' :: natToChars i.natAbs else natToChars i.natAbs

/-- Numeric value of a digit string. -/
def digitsVal (cs : List Char) : Nat :=
  cs.foldl (fun a c => a * 10 + (c.toNat - 48)) 0

/-- Parse an unsigned decimal numeral: `none` on an empty or non-digit
string. -/
def natFromChars (cs : List Char) : Option Nat :=
  if cs ≠ [] ∧ cs.all Char.isDigit then some (digitsVal cs) else none

/-- Model of Python `int(s)` on the snapshot's field strings: an optional
minus sign followed by decimal digits; `none` models the `ValueError` on
anything else.  (Python `int` additionally tolerates surrounding whitespace
and a plus sign, which no snapshot written by `save_population` contains.) -/
def pyInt (cs : List Char) : Option Int :=
  match cs with
  | [] => none
  | c :: rest =>
    if c = '-' then (natFromChars rest).map (fun n => -(Int.ofNat n))
    else (natFromChars (c :: rest)).map (fun n => Int.ofNat n)

/-- Model of Python `str.split(sep)` for a one-character separator:
`"".split(sep) = [""]`, and every occurrence of the separator cuts. -/
def splitSep (sep : Char) : List Char → List (List Char)
  | [] => [[]]
  | c :: cs =>
    let r := splitSep sep cs
    if c = sep then [] :: r
    else
      match r with
      | [] => [[c]]
      | h :: t => (c :: h) :: t

/-- Model of Python `str.strip()`: drop whitespace from both ends. -/
def pyStrip (cs : List Char) : List Char :=
  ((cs.dropWhile Char.isWhitespace).reverse.dropWhile Char.isWhitespace).reverse

/-- The CSV line written for one agent by `save_population`'s f-string
(without the trailing newline). -/
def saveLine (p : Agent) : List Char :=
  intToChars p.id ++ ',' :: (p.sex.data ++ ',' :: (intToChars p.age ++ ',' ::
    (intToChars p.alive ++ ',' :: (intToChars p.health ++ ',' ::
      (intToChars p.fertility ++ ',' :: (intToChars p.partner_id ++ ',' ::
        intToChars p.children_count))))))

/-- The header line written by `save_population`. -/
def headerChars : List Char :=
  "id,sex,age,alive,health,fertility,partner_id,children_count".data

/-- `save_population(population)`: the full file contents written to the CSV
(header, then one line per agent, each line newline-terminated). -/
def save_population (population : List Agent) : List Char :=
  headerChars ++ '\n' :: (population.map (fun p => saveLine p ++ ['\n'])).flatten

/-- Parse one stripped CSV line into an agent: split on commas, require at
least eight fields (Python raises `IndexError` on fewer; fields beyond the
eighth are never read), coerce the numeric fields with `int` (`none` models
the `ValueError` on a non-coercible field). -/
def parseLine (cs : List Char) : Option Agent :=
  let item := splitSep ',' cs
  if 8 ≤ item.length then
    match pyInt (item.getD 0 []), pyInt (item.getD 2 []), pyInt (item.getD 3 []),
        pyInt (item.getD 4 []), pyInt (item.getD 5 []), pyInt (item.getD 6 []),
        pyInt (item.getD 7 []) with
    | some i, some a, some al, some h, some f, some pa, some c =>
      some ⟨i, String.mk (item.getD 1 []), a, al, h, f, pa, c⟩
    | _, _, _, _, _, _, _ => none
  else none

/-- Process the data lines of the snapshot in order: strip each line, skip
empty ones, parse the rest; any parse failure aborts the whole load (the
Python loop raises at the first bad line). -/
def loadLines : List (List Char) → Option (List Agent)
  | [] => some []
  | l :: ls =>
    let s := pyStrip l
    if s = [] then loadLines ls
    else
      match parseLine s, loadLines ls with
      | some a, some rest => some (a :: rest)
      | _, _ => none

/-- `load_population()` on given file contents: split into lines, skip the
header line, parse the remainder.  `none` models an exception escaping
`load_population`. -/
def load_population (file : List Char) : Option (List Agent) :=
  loadLines ((splitSep '\n' file).drop 1)

/-- One `for i in range(n)` run of `generate_initial_population`'s loops:
agents of the given sex with consecutive ids, age drawn from [18, 40] and
health from [70, 100]. -/
def genAgents (sex : String) (startId : Int) : Nat → RandState → List Agent × RandState
  | 0, r => ([], r)
  | n + 1, r =>
    let (a, r1) := nextInt 18 40 r
    let (h, r2) := nextInt 70 100 r1
    let (rest, r3) := genAgents sex (startId + 1) n r2
    (⟨startId, sex, a, 1, h, 1, -1, 0⟩ :: rest, r3)

/-- `generate_initial_population()`: 10 males (ids 0-9) then 10 females
(ids 10-19). -/
def generate_initial_population (r : RandState) : List Agent × RandState :=
  let (ms, r1) := genAgents "M" 0 10 r
  let (fs, r2) := genAgents "F" 10 10 r1
  (ms ++ fs, r2)

/-- `main`'s load-or-initialize prologue: `load_population` is wrapped in a
bare `except:`, so ANY failure (missing file modelled by `none` contents, or
any exception inside `load_population`), as well as a loaded table of zero
agents, is answered by substituting a freshly generated initial population. -/
def loadOrInit (file : Option (List Char)) (r : RandState) :
    List Agent × RandState :=
  match file with
  | none => generate_initial_population r
  | some s =>
    match load_population s with
    | none => generate_initial_population r
    | some pop =>
      if pop.length = 0 then generate_initial_population r else (pop, r)

/-- The body of `main`'s per-step block (`death` through `reproduce`), as a
function of the incoming table and entropy state.  `none` models an uncaught
exception inside the step (`StopIteration` in `get_all_couples`, or
`ValueError` from `max` on an empty table). -/
def mainStep (population : List Agent) (r : RandState) :
    Option (List Agent × RandState) :=
  let (pop1, r1) := death population r
  let pop2 := aging_update pop1
  let pop3 := fertility_update pop2
  let (men, women) := get_single_people pop3
  let (pairs, r2) := pair_people men women r1
  let pop4 := apply_pairs pop3 pairs
  match get_all_couples pop4 with
  | none => none
  | some couples => reproduce pop4 couples r2

/-- The table after `main`'s vital-rate passes (`death`, `aging_update`,
`fertility_update`), before pairing. -/
def pop3Of (population : List Agent) (r : RandState) : List Agent :=
  fertility_update (aging_update (death population r).1)

/-- The pairs formed (and the entropy state left) by `main`'s pairing calls. -/
def pairsOf (population : List Agent) (r : RandState) :
    List (Agent × Agent) × RandState :=
  pair_people (get_single_people (pop3Of population r)).1
    (get_single_people (pop3Of population r)).2 (death population r).2

/-- The table after `main`'s `apply_pairs` call, as passed to
`get_all_couples` and `reproduce`. -/
def pop4Of (population : List Agent) (r : RandState) : List Agent :=
  apply_pairs (pop3Of population r) (pairsOf population r).1

/-- The per-agent update applied by one `apply_pairs` iteration: set the
partner of the pair's man to the woman's id, then of the woman to the man's
id. -/
def pairUpd (mw : Agent × Agent) (p : Agent) : Agent :=
  let p1 := if p.id = mw.1.id then { p with partner_id := mw.2.id } else p
  if p1.id = mw.2.id then { p1 with partner_id := mw.1.id } else p1

/-- Ids are pairwise distinct across the table. -/
def NodupIds (population : List Agent) : Prop :=
  (population.map Agent.id).Nodup

/-- Partnership symmetry: every agent with a partner points at an agent that
points back. -/
def Symm (population : List Agent) : Prop :=
  ∀ p ∈ population, p.partner_id ≠ -1 →
    ∃ q ∈ population, q.id = p.partner_id ∧ q.partner_id = p.id

/-- No two distinct agents claim the same partner. -/
def OnePartner (population : List Agent) : Prop :=
  ∀ p ∈ population, ∀ q ∈ population,
    p.partner_id ≠ -1 → p.partner_id = q.partner_id → p = q

/-- Referential integrity of partner links: every non-none `partner_id` is
the id of some agent in the table. -/
def RefIntegrity (population : List Agent) : Prop :=
  ∀ p ∈ population, p.partner_id ≠ -1 → ∃ q ∈ population, q.id = p.partner_id

/-- No agent is its own partner. -/
def NoSelfPartner (population : List Agent) : Prop :=
  ∀ p ∈ population, p.partner_id ≠ p.id

/-- The ages exempted from every mortality band: the internal band
boundaries 1, 15, 40, 55 and 70 (all comparisons on them are strict).  Age
85 is NOT exempt: the final branch `age >= 85` is inclusive. -/
def GapAge (a : Int) : Prop :=
  a = 1 ∨ a = 15 ∨ a = 40 ∨ a = 55 ∨ a = 70

/-- Equality of all fields except `alive`. -/
def SameExceptAlive (p q : Agent) : Prop :=
  q.id = p.id ∧ q.sex = p.sex ∧ q.age = p.age ∧ q.health = p.health ∧
    q.fertility = p.fertility ∧ q.partner_id = p.partner_id ∧
    q.children_count = p.children_count

/-- Equality of all fields except `children_count`. -/
def SameExceptChildren (p q : Agent) : Prop :=
  q.id = p.id ∧ q.sex = p.sex ∧ q.age = p.age ∧ q.alive = p.alive ∧
    q.health = p.health ∧ q.fertility = p.fertility ∧
    q.partner_id = p.partner_id

/-- Equality of all fields except `partner_id`. -/
def SameExceptPartner (p q : Agent) : Prop :=
  q.id = p.id ∧ q.sex = p.sex ∧ q.age = p.age ∧ q.alive = p.alive ∧
    q.health = p.health ∧ q.fertility = p.fertility ∧
    q.children_count = p.children_count

/-! ## Basic lemmas about the mortality pass -/

lemma death_nil (r : RandState) : death [] r = ([], r) := rfl

lemma death_cons (a : Agent) (as : List Agent) (r : RandState) :
    death (a :: as) r =
      ((deathOne a r).1 :: (death as (deathOne a r).2).1,
        (death as (deathOne a r).2).2) := by
  rcases h : deathOne a r with ⟨p', r1⟩
  rcases h2 : death as r1 with ⟨ps', r2⟩
  simp [death, h, h2]

lemma deathOne_boundary (p : Agent) (r : RandState) (h : GapAge p.age) :
    deathOne p r = (p, r) := by
  rcases h with h | h | h | h | h <;> norm_num [deathOne, deathChain, h]

lemma sameExceptAlive_refl (p : Agent) : SameExceptAlive p p := by
  simp [SameExceptAlive]

lemma sameExceptAlive_trans {a b c : Agent} (h1 : SameExceptAlive a b)
    (h2 : SameExceptAlive b c) : SameExceptAlive a c := by
  unfold SameExceptAlive at *
  obtain ⟨_, _, _, _, _, _, _⟩ := h1
  obtain ⟨_, _, _, _, _, _, _⟩ := h2
  refine ⟨?_, ?_, ?_, ?_, ?_, ?_, ?_⟩ <;> simp_all

lemma sameExceptAlive_dead (p : Agent) :
    SameExceptAlive p { p with alive := 0 } := by
  simp [SameExceptAlive]

lemma deathChain_sameExceptAlive (p : Agent) (r : RandState) :
    SameExceptAlive p (deathChain p r).1 := by
  unfold deathChain nextFloat
  split_ifs <;> simp [SameExceptAlive, apply_ite]

lemma deathOne_sameExceptAlive (p : Agent) (r : RandState) :
    SameExceptAlive p (deathOne p r).1 := by
  unfold deathOne
  split_ifs with h1
  · rcases h2 : nextFloat r with ⟨u, r'⟩
    simp only [h2]
    by_cases h3 : u < 5/100
    · simp only [h3, if_true]
      exact sameExceptAlive_trans (sameExceptAlive_dead p)
        (deathChain_sameExceptAlive _ _)
    · simp only [h3, if_false]
      exact deathChain_sameExceptAlive _ _
  · exact deathChain_sameExceptAlive _ _

lemma death_length (population : List Agent) (r : RandState) :
    ((death population r).1).length = population.length := by
  induction population generalizing r with
  | nil => simp [death_nil]
  | cons a as ih => simp [death_cons, ih]

lemma death_getElem? (population : List Agent) (r : RandState) (i : Nat)
    (p : Agent) (h : population[i]? = some p) :
    ∃ q, ((death population r).1)[i]? = some q ∧ SameExceptAlive p q := by
  induction population generalizing r i with
  | nil => simp at h
  | cons a as ih =>
    rcases i with _ | i
    · simp at h
      subst h
      exact ⟨(deathOne a r).1, by simp [death_cons], deathOne_sameExceptAlive a r⟩
    · simp at h
      rcases ih (deathOne a r).2 i h with ⟨q, hq, hs⟩
      exact ⟨q, by simpa [death_cons] using hq, hs⟩

/-! ## C3 and C6 -/

/-- C3 counterexample: the claim exempts age 85, but the final branch of the
chain is the inclusive `age >= 85`, so a living agent aged exactly 85 is
checked (one draw is consumed) and dies on a draw of 0 (< 0.35). -/
theorem boundary_age_85_counterexample :
    deathOne ⟨0, "M", 85, 1, 70, 1, -1, 0⟩ ⟨[0], [], []⟩ =
      (⟨0, "M", 85, 0, 70, 1, -1, 0⟩, ⟨[], [], []⟩) := by
  norm_num [deathOne, deathChain, nextFloat]

/-- C3 (amended): agents aged exactly 1, 15, 40, 55 or 70 receive no
mortality check (no draw is consumed, `alive` is untouched, the whole pass
leaves their record unchanged); an agent aged exactly 85 falls into the
inclusive `age >= 85` band and is checked against probability 0.35. -/
theorem gap_ages_immune_to_mortality :
    (∀ (p : Agent) (r : RandState), GapAge p.age → deathOne p r = (p, r)) ∧
    (∀ (population : List Agent) (r : RandState) (i : Nat) (q : Agent),
      population[i]? = some q → GapAge q.age →
      ((death population r).1)[i]? = some q) ∧
    (∀ (p : Agent) (r : RandState), p.age = 85 →
      deathOne p r =
        (if (nextFloat r).1 < 35/100 then { p with alive := 0 } else p,
          (nextFloat r).2)) := by
  refine ⟨deathOne_boundary, ?_, ?_⟩
  · intro population r i q h hb
    induction population generalizing r i with
    | nil => simp at h
    | cons a as ih =>
      rcases i with _ | i
      · simp at h
        subst h
        simp [death_cons, deathOne_boundary a r hb]
      · simp at h
        simpa [death_cons] using ih (deathOne a r).2 i h
  · intro p r h
    rcases h2 : nextFloat r with ⟨u, r2⟩
    norm_num [deathOne, deathChain, h, h2]

/-- Witness for C3 (amended) at a concrete input: an agent aged exactly 15
survives the mortality pass untouched even though every draw in the stream
is 0. -/
theorem gap_ages_immune_to_mortality_witness :
    ((death [⟨7, "M", 15, 1, 73, 1, -1, 0⟩] ⟨[0, 0], [], []⟩).1)[0]? =
      some ⟨7, "M", 15, 1, 73, 1, -1, 0⟩ :=
  gap_ages_immune_to_mortality.2.1 [⟨7, "M", 15, 1, 73, 1, -1, 0⟩]
    ⟨[0, 0], [], []⟩ 0 ⟨7, "M", 15, 1, 73, 1, -1, 0⟩ (by rfl)
    (by simp [GapAge])

lemma fup_turns_off (p : Agent) (h : 65 < p.age) :
    (fertilityUpdateAgent p).fertility = 0 := by
  unfold fertilityUpdateAgent
  by_cases h1 : 18 < p.age ∧ p.fertility = 0 <;> simp [h1, h]

lemma fup_turns_on (p : Agent) (h1 : 18 < p.age) (h2 : p.age ≤ 65)
    (h3 : p.fertility = 0) : (fertilityUpdateAgent p).fertility = 1 := by
  unfold fertilityUpdateAgent
  simp [show 18 < p.age ∧ p.fertility = 0 from ⟨h1, h3⟩,
    show ¬65 < p.age by omega]

lemma fup_keeps (p : Agent)
    (h : p.age ≤ 18 ∨ (p.fertility ≠ 0 ∧ p.age ≤ 65)) :
    (fertilityUpdateAgent p).fertility = p.fertility := by
  unfold fertilityUpdateAgent
  rcases h with h | ⟨h1, h2⟩
  · simp [show ¬(18 < p.age ∧ p.fertility = 0) by omega,
      show ¬65 < p.age by omega]
  · simp [show ¬(18 < p.age ∧ p.fertility = 0) by tauto,
      show ¬65 < p.age by omega]

lemma fup_other_fields (p : Agent) :
    (fertilityUpdateAgent p).id = p.id ∧ (fertilityUpdateAgent p).sex = p.sex ∧
    (fertilityUpdateAgent p).age = p.age ∧
    (fertilityUpdateAgent p).alive = p.alive ∧
    (fertilityUpdateAgent p).health = p.health ∧
    (fertilityUpdateAgent p).partner_id = p.partner_id ∧
    (fertilityUpdateAgent p).children_count = p.children_count := by
  unfold fertilityUpdateAgent
  by_cases h1 : 18 < p.age ∧ p.fertility = 0 <;>
    by_cases h2 : 65 < p.age <;> simp [h1, h2]

/-- C6: the fertility pass visits every agent (no `alive` filter): an
infertile agent strictly older than 18 becomes fertile, any agent strictly
older than 65 ends infertile (that rule runs second and wins), everyone else
keeps their fertility, and no other field changes. -/
theorem fertility_update_spec (population : List Agent) :
    (fertility_update population).length = population.length ∧
    ∀ (i : Nat) (p q : Agent), population[i]? = some p →
      (fertility_update population)[i]? = some q →
      (65 < p.age → q.fertility = 0) ∧
      (18 < p.age → p.age ≤ 65 → p.fertility = 0 → q.fertility = 1) ∧
      ((p.age ≤ 18 ∨ (p.fertility ≠ 0 ∧ p.age ≤ 65)) → q.fertility = p.fertility) ∧
      q.id = p.id ∧ q.sex = p.sex ∧ q.age = p.age ∧ q.alive = p.alive ∧
      q.health = p.health ∧ q.partner_id = p.partner_id ∧
      q.children_count = p.children_count := by
  refine ⟨by simp [fertility_update], ?_⟩
  intro i p q hp hq
  have : (fertility_update population)[i]? = some (fertilityUpdateAgent p) := by
    simp [fertility_update, hp]
  rw [this] at hq
  injection hq with hq
  subst hq
  obtain ⟨f1, f2, f3, f4, f5, f6, f7⟩ := fup_other_fields p
  exact ⟨fun h => fup_turns_off p h, fun h1 h2 h3 => fup_turns_on p h1 h2 h3,
    fun h => fup_keeps p h, f1, f2, f3, f4, f5, f6, f7⟩

/-- Witness for C6 at a concrete input: a dead 70-year-old fertile agent is
made infertile with every other field intact. -/
theorem fertility_update_spec_witness :
    ((fertility_update [⟨3, "F", 70, 0, 50, 1, -1, 2⟩]).length = 1) ∧
      ((fertility_update [⟨3, "F", 70, 0, 50, 1, -1, 2⟩])[0]? =
        some ⟨3, "F", 70, 0, 50, 0, -1, 2⟩) := by
  refine ⟨(fertility_update_spec [⟨3, "F", 70, 0, 50, 1, -1, 2⟩]).1, ?_⟩
  have h := (fertility_update_spec [⟨3, "F", 70, 0, 50, 1, -1, 2⟩]).2 0
    ⟨3, "F", 70, 0, 50, 1, -1, 2⟩ ⟨3, "F", 70, 0, 50, 0, -1, 2⟩
  decide

/-! ## Pointwise behaviour of the other passes -/

lemma agent_eq_of_fields {p q : Agent} (h1 : q.id = p.id) (h2 : q.sex = p.sex)
    (h3 : q.age = p.age) (h4 : q.alive = p.alive) (h5 : q.health = p.health)
    (h6 : q.fertility = p.fertility) (h7 : q.partner_id = p.partner_id)
    (h8 : q.children_count = p.children_count) : q = p := by
  cases p; cases q; simp_all

lemma aging_update_getElem? (population : List Agent) (i : Nat) :
    (aging_update population)[i]? =
      population[i]?.map
        (fun p => if p.alive = 1 then { p with age := p.age + 5 } else p) := by
  simp [aging_update, List.getElem?_map]

lemma aging_update_length (population : List Agent) :
    (aging_update population).length = population.length := by
  simp [aging_update]

lemma fertility_update_getElem? (population : List Agent) (i : Nat) :
    (fertility_update population)[i]? =
      population[i]?.map fertilityUpdateAgent := by
  simp [fertility_update, List.getElem?_map]

lemma fertility_update_length (population : List Agent) :
    (fertility_update population).length = population.length := by
  simp [fertility_update]

lemma map_id_of_preserve {f : Agent → Agent} (h : ∀ p, (f p).id = p.id)
    (l : List Agent) : (l.map f).map Agent.id = l.map Agent.id := by
  induction l with
  | nil => rfl
  | cons a as ih => simp_all

lemma death_ids (population : List Agent) (r : RandState) :
    ((death population r).1).map Agent.id = population.map Agent.id := by
  induction population generalizing r with
  | nil => simp [death_nil]
  | cons a as ih =>
    have h := (deathOne_sameExceptAlive a r).1
    simp [death_cons, h, ih]

lemma aging_update_ids (population : List Agent) :
    (aging_update population).map Agent.id = population.map Agent.id := by
  apply map_id_of_preserve
  intro p
  by_cases h : p.alive = 1 <;> simp [h]

lemma fertility_update_ids (population : List Agent) :
    (fertility_update population).map Agent.id = population.map Agent.id := by
  apply map_id_of_preserve
  intro p
  exact (fup_other_fields p).1

lemma pairUpd_id (mw : Agent × Agent) (p : Agent) : (pairUpd mw p).id = p.id := by
  unfold pairUpd
  split_ifs <;> simp [apply_ite]

lemma sameExceptPartner_refl (p : Agent) : SameExceptPartner p p := by
  simp [SameExceptPartner]

lemma sameExceptPartner_trans {a b c : Agent} (h1 : SameExceptPartner a b)
    (h2 : SameExceptPartner b c) : SameExceptPartner a c := by
  unfold SameExceptPartner at *
  obtain ⟨_, _, _, _, _, _, _⟩ := h1
  obtain ⟨_, _, _, _, _, _, _⟩ := h2
  refine ⟨?_, ?_, ?_, ?_, ?_, ?_, ?_⟩ <;> simp_all

lemma pairUpd_sameExceptPartner (mw : Agent × Agent) (p : Agent) :
    SameExceptPartner p (pairUpd mw p) := by
  unfold pairUpd
  split_ifs <;> simp [SameExceptPartner, apply_ite]

lemma apply_pairs_eq_map (population : List Agent)
    (pairs : List (Agent × Agent)) :
    apply_pairs population pairs =
      population.map (fun p => pairs.foldl (fun q mw => pairUpd mw q) p) := by
  induction pairs generalizing population with
  | nil => simp [apply_pairs]
  | cons mw t ih =>
    have step : setPartner (setPartner population mw.1.id mw.2.id) mw.2.id mw.1.id =
        population.map (pairUpd mw) := by
      simp only [setPartner, List.map_map]
      apply List.map_congr_left
      intro p _
      simp only [Function.comp]
      unfold pairUpd
      split_ifs <;> simp_all
    calc apply_pairs population (mw :: t)
        = apply_pairs (setPartner (setPartner population mw.1.id mw.2.id) mw.2.id mw.1.id) t := by
          simp [apply_pairs]
      _ = apply_pairs (population.map (pairUpd mw)) t := by rw [step]
      _ = (population.map (pairUpd mw)).map (fun p => t.foldl (fun q mw' => pairUpd mw' q) p) := ih _
      _ = population.map (fun p => (mw :: t).foldl (fun q mw' => pairUpd mw' q) p) := by
          simp [List.map_map, Function.comp]

lemma pairsFold_sameExceptPartner (pairs : List (Agent × Agent)) (p : Agent) :
    SameExceptPartner p (pairs.foldl (fun q mw => pairUpd mw q) p) := by
  induction pairs generalizing p with
  | nil => exact sameExceptPartner_refl p
  | cons mw t ih =>
    exact sameExceptPartner_trans (pairUpd_sameExceptPartner mw p) (ih _)

lemma apply_pairs_getElem? (population : List Agent)
    (pairs : List (Agent × Agent)) (i : Nat) :
    (apply_pairs population pairs)[i]? =
      population[i]?.map (fun p => pairs.foldl (fun q mw => pairUpd mw q) p) := by
  rw [apply_pairs_eq_map]
  simp [List.getElem?_map]

lemma apply_pairs_length (population : List Agent)
    (pairs : List (Agent × Agent)) :
    (apply_pairs population pairs).length = population.length := by
  rw [apply_pairs_eq_map]
  simp

lemma apply_pairs_ids (population : List Agent) (pairs : List (Agent × Agent)) :
    (apply_pairs population pairs).map Agent.id = population.map Agent.id := by
  rw [apply_pairs_eq_map]
  apply map_id_of_preserve
  intro p
  exact (pairsFold_sameExceptPartner pairs p).1

lemma bumpChildren_getElem? (population : List Agent) (t : Int) (i : Nat) :
    (bumpChildren population t)[i]? =
      population[i]?.map
        (fun p => if p.id = t then { p with children_count := p.children_count + 1 } else p) := by
  simp [bumpChildren, List.getElem?_map]

lemma bumpChildren_length (population : List Agent) (t : Int) :
    (bumpChildren population t).length = population.length := by
  simp [bumpChildren]

lemma bumpChildren_ids (population : List Agent) (t : Int) :
    (bumpChildren population t).map Agent.id = population.map Agent.id := by
  apply map_id_of_preserve
  intro p
  by_cases h : p.id = t <;> simp [h]

lemma sameExceptChildren_refl (p : Agent) : SameExceptChildren p p := by
  simp [SameExceptChildren]

lemma sameExceptChildren_trans {a b c : Agent} (h1 : SameExceptChildren a b)
    (h2 : SameExceptChildren b c) : SameExceptChildren a c := by
  unfold SameExceptChildren at *
  obtain ⟨_, _, _, _, _, _, _⟩ := h1
  obtain ⟨_, _, _, _, _, _, _⟩ := h2
  refine ⟨?_, ?_, ?_, ?_, ?_, ?_, ?_⟩ <;> simp_all

/-! ## Lemmas about the maximum id -/

lemma foldl_max_bounds (l : List Int) (a : Int) :
    a ≤ l.foldl max a ∧ ∀ x ∈ l, x ≤ l.foldl max a := by
  induction l generalizing a with
  | nil => simp
  | cons b bs ih =>
    refine ⟨le_trans (le_max_left a b) (ih (max a b)).1, ?_⟩
    intro x hx
    rcases List.mem_cons.1 hx with h | h
    · subst h
      exact le_trans (le_max_right a x) (ih (max a x)).1
    · exact (ih (max a b)).2 x h

lemma le_of_max?_eq_some {l : List Int} {m : Int} (h : l.max? = some m) :
    ∀ x ∈ l, x ≤ m := by
  cases l with
  | nil => simp at h
  | cons a as =>
    have : (a :: as).max? = some (as.foldl max a) := rfl
    rw [this] at h
    injection h with h
    subst h
    intro x hx
    rcases List.mem_cons.1 hx with h | h
    · subst h
      exact (foldl_max_bounds as x).1
    · exact (foldl_max_bounds as a).2 x h

lemma maxId_bound {population : List Agent} {m : Int}
    (h : maxId population = some m) : ∀ p ∈ population, p.id ≤ m := by
  intro p hp
  exact le_of_max?_eq_some h p.id (List.mem_map_of_mem Agent.id hp)

lemma maxId_congr {l1 l2 : List Agent}
    (h : l1.map Agent.id = l2.map Agent.id) : maxId l1 = maxId l2 := by
  unfold maxId
  rw [h]

/-! ## The reproduction fold -/

lemma reproduceStep_skip (s : RepState) (mw : Agent × Agent)
    (h : ¬(mw.1.alive = 1 ∧ mw.2.alive = 1 ∧ mw.1.fertility = 1 ∧
      mw.2.fertility = 1)) :
    reproduceStep s mw = s := by
  unfold reproduceStep
  by_cases h1 : mw.1.alive = 1 ∧ mw.2.alive = 1
  · by_cases h2 : mw.1.fertility = 1 ∧ mw.2.fertility = 1
    · tauto
    · simp [h1, h2]
  · simp [h1]

lemma reproduceStep_noconception (s : RepState) (mw : Agent × Agent)
    (h : mw.1.alive = 1 ∧ mw.2.alive = 1 ∧ mw.1.fertility = 1 ∧
      mw.2.fertility = 1)
    (hu : ¬(nextFloat s.rand).1 < 1/2) :
    reproduceStep s mw = { s with rand := (nextFloat s.rand).2 } := by
  obtain ⟨h1, h2, h3, h4⟩ := h
  unfold reproduceStep
  rcases hr : nextFloat s.rand with ⟨u, r1⟩
  rw [hr] at hu
  simp only at hu
  simp [h1, h2, h3, h4, hu]
  linarith [le_of_not_lt hu]

lemma reproduceStep_conception (s : RepState) (mw : Agent × Agent)
    (h : mw.1.alive = 1 ∧ mw.2.alive = 1 ∧ mw.1.fertility = 1 ∧
      mw.2.fertility = 1)
    (hu : (nextFloat s.rand).1 < 1/2) :
    reproduceStep s mw =
      { pop := bumpChildren (bumpChildren s.pop mw.1.id) mw.2.id,
        children := s.children ++
          [⟨s.nextId,
            if (nextInt 0 1 (nextFloat s.rand).2).1 = 1 then "M" else "F",
            0, 1, (nextInt 70 100 (nextInt 0 1 (nextFloat s.rand).2).2).1,
            0, -1, 0⟩],
        nextId := s.nextId + 1,
        rand := (nextInt 70 100 (nextInt 0 1 (nextFloat s.rand).2).2).2 } := by
  obtain ⟨h1, h2, h3, h4⟩ := h
  unfold reproduceStep
  rcases hr : nextFloat s.rand with ⟨u, r1⟩
  rw [hr] at hu
  simp only at hu
  simp [h1, h2, h3, h4, hu]
  linarith

lemma bump2_pointwise (pop : List Agent) (t1 t2 : Int) (i : Nat) (p : Agent)
    (hp : pop[i]? = some p) :
    ∃ q, (bumpChildren (bumpChildren pop t1) t2)[i]? = some q ∧
      SameExceptChildren p q ∧ p.children_count ≤ q.children_count := by
  have h1 : (bumpChildren pop t1)[i]? =
      some (if p.id = t1 then
        { p with children_count := p.children_count + 1 } else p) := by
    rw [bumpChildren_getElem?, hp]
    rfl
  by_cases hA : p.id = t1
  · rw [if_pos hA] at h1
    by_cases hB : p.id = t2
    · refine ⟨{ p with children_count := p.children_count + 1 + 1 }, ?_, ?_, ?_⟩
      · rw [bumpChildren_getElem?, h1]
        simp [hB]
      · simp [SameExceptChildren]
      · simp
        omega
    · refine ⟨{ p with children_count := p.children_count + 1 }, ?_, ?_, ?_⟩
      · rw [bumpChildren_getElem?, h1]
        simp [hB]
      · simp [SameExceptChildren]
      · simp
  · rw [if_neg hA] at h1
    by_cases hB : p.id = t2
    · refine ⟨{ p with children_count := p.children_count + 1 }, ?_, ?_, ?_⟩
      · rw [bumpChildren_getElem?, h1]
        simp [hB]
      · simp [SameExceptChildren]
      · simp
    · refine ⟨p, ?_, sameExceptChildren_refl p, le_refl _⟩
      rw [bumpChildren_getElem?, h1]
      simp [hB]

lemma reproduce_fold_spec (couples : List (Agent × Agent)) : ∀ (s : RepState),
    (couples.foldl reproduceStep s).pop.length = s.pop.length ∧
    (couples.foldl reproduceStep s).pop.map Agent.id = s.pop.map Agent.id ∧
    (∀ (i : Nat) (p : Agent), s.pop[i]? = some p →
      ∃ q, (couples.foldl reproduceStep s).pop[i]? = some q ∧
        SameExceptChildren p q ∧ p.children_count ≤ q.children_count) ∧
    ∃ new, (couples.foldl reproduceStep s).children = s.children ++ new ∧
      (couples.foldl reproduceStep s).nextId = s.nextId + new.length ∧
      ∀ (j : Nat) (q : Agent), new[j]? = some q →
        q.id = s.nextId + (j : Int) ∧ q.age = 0 ∧
        q.alive = 1 ∧ q.fertility = 0 ∧ q.partner_id = -1 ∧
        q.children_count = 0 := by
  induction couples with
  | nil =>
    intro s
    refine ⟨rfl, rfl, fun i p hp => ⟨p, hp, sameExceptChildren_refl p, le_refl _⟩,
      [], by simp, by simp, by simp⟩
  | cons mw rest ih =>
    intro s
    rcases Decidable.em (mw.1.alive = 1 ∧ mw.2.alive = 1 ∧ mw.1.fertility = 1 ∧
        mw.2.fertility = 1) with he | he
    · rcases Decidable.em ((nextFloat s.rand).1 < 1/2) with hu | hu
      · -- conception: the step bumps two counters and appends one child
        rw [List.foldl_cons, reproduceStep_conception s mw he hu]
        obtain ⟨l1, l2, l3, l4⟩ := ih
          { pop := bumpChildren (bumpChildren s.pop mw.1.id) mw.2.id,
            children := s.children ++
              [⟨s.nextId,
                if (nextInt 0 1 (nextFloat s.rand).2).1 = 1 then "M" else "F",
                0, 1, (nextInt 70 100 (nextInt 0 1 (nextFloat s.rand).2).2).1,
                0, -1, 0⟩],
            nextId := s.nextId + 1,
            rand := (nextInt 70 100 (nextInt 0 1 (nextFloat s.rand).2).2).2 }
        refine ⟨?_, ?_, ?_, ?_⟩
        · rw [l1]
          simp [bumpChildren_length]
        · rw [l2]
          simp [bumpChildren_ids]
        · intro i p hp
          rcases bump2_pointwise s.pop mw.1.id mw.2.id i p hp with
            ⟨q0, hq0, hs0, hle0⟩
          rcases l3 i q0 hq0 with ⟨q, hq, hs, hle⟩
          exact ⟨q, hq, sameExceptChildren_trans hs0 hs, le_trans hle0 hle⟩
        · rcases l4 with ⟨new', hn1, hn2, hn3⟩
          refine ⟨(⟨s.nextId,
              if (nextInt 0 1 (nextFloat s.rand).2).1 = 1 then "M" else "F",
              0, 1, (nextInt 70 100 (nextInt 0 1 (nextFloat s.rand).2).2).1,
              0, -1, 0⟩ : Agent) :: new', ?_, ?_, ?_⟩
          · rw [hn1]
            simp
          · rw [hn2]
            simp
            omega
          · intro j q hj
            rcases j with _ | j
            · simp at hj
              subst hj
              simp
            · simp at hj
              have := hn3 j q hj
              refine ⟨?_, this.2⟩
              rw [this.1]
              simp
              omega
      · -- eligible but the conception draw fails: only the entropy advances
        rw [List.foldl_cons, reproduceStep_noconception s mw he hu]
        obtain ⟨l1, l2, l3, l4⟩ := ih { s with rand := (nextFloat s.rand).2 }
        exact ⟨l1, l2, l3, l4⟩
    · -- ineligible couple: the state is untouched
      rw [List.foldl_cons, reproduceStep_skip s mw he]
      exact ih s

/-! ## Destructors for reproduce and mainStep -/

lemma reproduce_eq_some {population : List Agent}
    {couples : List (Agent × Agent)} {r : RandState} {res : List Agent}
    {r' : RandState} (h : reproduce population couples r = some (res, r')) :
    ∃ m, maxId population = some m ∧
      res = (couples.foldl reproduceStep ⟨population, [], m + 1, r⟩).pop ++
        (couples.foldl reproduceStep ⟨population, [], m + 1, r⟩).children ∧
      r' = (couples.foldl reproduceStep ⟨population, [], m + 1, r⟩).rand := by
  unfold reproduce at h
  cases hm : maxId population with
  | none =>
    rw [hm] at h
    simp at h
  | some m =>
    rw [hm] at h
    simp at h
    exact ⟨m, rfl, h.1.symm, h.2.symm⟩

lemma mainStep_unfold (population : List Agent) (r : RandState) :
    mainStep population r =
      match get_all_couples (pop4Of population r) with
      | none => none
      | some couples =>
        reproduce (pop4Of population r) couples (pairsOf population r).2 := rfl

lemma mainStep_eq_some {population : List Agent} {r : RandState}
    {res : List Agent} {r' : RandState}
    (h : mainStep population r = some (res, r')) :
    ∃ couples, get_all_couples (pop4Of population r) = some couples ∧
      reproduce (pop4Of population r) couples (pairsOf population r).2 =
        some (res, r') := by
  rw [mainStep_unfold] at h
  cases hc : get_all_couples (pop4Of population r) with
  | none =>
    rw [hc] at h
    simp at h
  | some couples =>
    rw [hc] at h
    exact ⟨couples, rfl, h⟩

lemma pop4Of_ids (population : List Agent) (r : RandState) :
    (pop4Of population r).map Agent.id = population.map Agent.id := by
  unfold pop4Of pop3Of
  rw [apply_pairs_ids, fertility_update_ids, aging_update_ids, death_ids]

lemma pop4Of_length (population : List Agent) (r : RandState) :
    (pop4Of population r).length = population.length := by
  have h := congrArg List.length (pop4Of_ids population r)
  simpa using h

/-! ## C5 -/

/-- C5: a couple with a dead or infertile member is skipped outright (no
draw, no child, no counter change); an eligible couple conceives exactly
when the uniform draw is below 0.5, and then exactly one child is created
with age 0, alive, infertile, unpartnered, zero children and id equal to the
reserved `next_id` (which is then incremented), while both parents'
`children_count` rises by exactly 1; at the level of `reproduce`, all
children are appended to the table only after the whole couple list has been
processed, and every child's id is strictly greater than every id present at
the start of the call. -/
theorem reproduce_offspring_spec :
    (∀ (s : RepState) (mw : Agent × Agent),
      ¬(mw.1.alive = 1 ∧ mw.2.alive = 1 ∧ mw.1.fertility = 1 ∧
        mw.2.fertility = 1) →
      reproduceStep s mw = s) ∧
    (∀ (s : RepState) (mw : Agent × Agent),
      (mw.1.alive = 1 ∧ mw.2.alive = 1 ∧ mw.1.fertility = 1 ∧
        mw.2.fertility = 1) →
      (nextFloat s.rand).1 < 1/2 →
      ∃ child : Agent,
        (reproduceStep s mw).children = s.children ++ [child] ∧
        child.id = s.nextId ∧ child.age = 0 ∧ child.alive = 1 ∧
        child.fertility = 0 ∧ child.partner_id = -1 ∧
        child.children_count = 0 ∧
        (reproduceStep s mw).nextId = s.nextId + 1 ∧
        (mw.1.id ≠ mw.2.id → ∀ (i : Nat) (p : Agent), s.pop[i]? = some p →
          (reproduceStep s mw).pop[i]? =
            some (if p.id = mw.1.id ∨ p.id = mw.2.id then
              { p with children_count := p.children_count + 1 } else p))) ∧
    (∀ (population : List Agent) (couples : List (Agent × Agent))
      (r : RandState) (res : List Agent) (r' : RandState),
      reproduce population couples r = some (res, r') →
      ∃ processed kids, res = processed ++ kids ∧
        processed.length = population.length ∧
        ∀ c ∈ kids, c.age = 0 ∧ c.alive = 1 ∧ c.fertility = 0 ∧
          c.partner_id = -1 ∧ c.children_count = 0 ∧
          ∀ p ∈ population, p.id < c.id) := by
  refine ⟨reproduceStep_skip, ?_, ?_⟩
  · intro s mw he hu
    rw [reproduceStep_conception s mw
      ⟨he.1, he.2.1, he.2.2.1, he.2.2.2⟩ hu]
    refine ⟨⟨s.nextId,
        if (nextInt 0 1 (nextFloat s.rand).2).1 = 1 then "M" else "F",
        0, 1, (nextInt 70 100 (nextInt 0 1 (nextFloat s.rand).2).2).1,
        0, -1, 0⟩, rfl, rfl, rfl, rfl, rfl, rfl, rfl, rfl, ?_⟩
    intro hne i p hp
    have h1 : (bumpChildren s.pop mw.1.id)[i]? =
        some (if p.id = mw.1.id then
          { p with children_count := p.children_count + 1 } else p) := by
      rw [bumpChildren_getElem?, hp]
      rfl
    by_cases hA : p.id = mw.1.id
    · rw [if_pos hA] at h1
      have hB : ¬p.id = mw.2.id := by
        rw [hA]
        exact hne
      rw [bumpChildren_getElem?, h1]
      simp [hA, hB, hne]
    · rw [if_neg hA] at h1
      by_cases hB : p.id = mw.2.id
      · rw [bumpChildren_getElem?, h1]
        simp [hA, hB]
      · rw [bumpChildren_getElem?, h1]
        simp [hA, hB]
  · intro population couples r res r' h
    rcases reproduce_eq_some h with ⟨m, hm, hres, _⟩
    obtain ⟨l1, l2, l3, l4⟩ :=
      reproduce_fold_spec couples ⟨population, [], m + 1, r⟩
    rcases l4 with ⟨new, hn1, hn2, hn3⟩
    refine ⟨(couples.foldl reproduceStep ⟨population, [], m + 1, r⟩).pop,
      (couples.foldl reproduceStep ⟨population, [], m + 1, r⟩).children,
      hres, l1, ?_⟩
    intro c hc
    rw [hn1] at hc
    simp only [List.nil_append] at hc
    rcases List.mem_iff_getElem?.1 hc with ⟨j, hj⟩
    obtain ⟨hid, hage, halive, hfert, hpartner, hcc⟩ := hn3 j c hj
    refine ⟨hage, halive, hfert, hpartner, hcc, ?_⟩
    intro p hp
    have hple := maxId_bound hm p hp
    rw [hid]
    simp only [RepState.nextId] at *
    omega

/-- Witness for C5 at a concrete input: an eligible couple with a conception
draw of 0 reserves id 9 and leaves `next_id` at 10. -/
theorem reproduce_offspring_spec_witness :
    (reproduceStep
      ⟨[⟨5, "M", 30, 1, 80, 1, 6, 0⟩, ⟨6, "F", 28, 1, 80, 1, 5, 0⟩], [], 9,
        ⟨[0], [1, 77], []⟩⟩
      (⟨5, "M", 30, 1, 80, 1, 6, 0⟩, ⟨6, "F", 28, 1, 80, 1, 5, 0⟩)).nextId
      = 10 := by
  obtain ⟨child, hc⟩ := reproduce_offspring_spec.2.1
    ⟨[⟨5, "M", 30, 1, 80, 1, 6, 0⟩, ⟨6, "F", 28, 1, 80, 1, 5, 0⟩], [], 9,
      ⟨[0], [1, 77], []⟩⟩
    (⟨5, "M", 30, 1, 80, 1, 6, 0⟩, ⟨6, "F", 28, 1, 80, 1, 5, 0⟩)
    ⟨rfl, rfl, rfl, rfl⟩ (by norm_num [nextFloat])
  rw [hc.2.2.2.2.2.2.2.1]
  decide

/-! ## C2 -/

/-- C2: starting from a table with pairwise-distinct ids, a full `main` step
keeps ids pairwise distinct after the offspring append; the fresh ids are
`m + 1, m + 2, ...` where `m` is the maximum id of the incoming table
(computed once, before any append, and incremented per successful birth, so
siblings get consecutive ids), and every new id strictly exceeds every id
present at the start. -/
theorem ids_unique_after_step (population : List Agent) (r : RandState)
    (res : List Agent) (r' : RandState) (hN : NodupIds population)
    (h : mainStep population r = some (res, r')) :
    NodupIds res ∧
    ∃ m, maxId population = some m ∧
      (∀ (j : Nat) (q : Agent), (res.drop population.length)[j]? = some q →
        q.id = m + 1 + (j : Int)) ∧
      (∀ q ∈ res.drop population.length, ∀ p ∈ population, p.id < q.id) := by
  rcases mainStep_eq_some h with ⟨couples, hc, hrep⟩
  rcases reproduce_eq_some hrep with ⟨m, hm, hres, _⟩
  have hmpop : maxId population = some m := by
    rw [← maxId_congr (pop4Of_ids population r)]
    exact hm
  obtain ⟨l1, l2, l3, l4⟩ := reproduce_fold_spec couples
    ⟨pop4Of population r, [], m + 1, (pairsOf population r).2⟩
  rcases l4 with ⟨new, hn1, hn2, hn3⟩
  simp only [List.nil_append] at hn1
  have hn3m : ∀ (j : Nat) (q : Agent), new[j]? = some q →
      q.id = m + 1 + (j : Int) ∧ q.age = 0 ∧ q.alive = 1 ∧ q.fertility = 0 ∧
      q.partner_id = -1 ∧ q.children_count = 0 := hn3
  have hplen :
      (couples.foldl reproduceStep
        ⟨pop4Of population r, [], m + 1, (pairsOf population r).2⟩).pop.length =
      population.length := by
    rw [l1]
    exact pop4Of_length population r
  have hdrop : res.drop population.length = new := by
    rw [hres, ← hplen, List.drop_left, hn1]
  have hids : res.map Agent.id = population.map Agent.id ++ new.map Agent.id := by
    rw [hres, List.map_append, hn1, l2, pop4Of_ids]
  constructor
  · unfold NodupIds
    rw [hids]
    rw [List.nodup_append]
    refine ⟨hN, ?_, ?_⟩
    · rw [List.nodup_iff_getElem?_ne_getElem?]
      intro i j hij hj hcon
      have hjlen : j < new.length := by simpa using hj
      have hilen : i < new.length := lt_trans hij hjlen
      have hi1 : new[i]? = some new[i] := List.getElem?_eq_getElem hilen
      have hj1 : new[j]? = some new[j] := List.getElem?_eq_getElem hjlen
      have hidi := (hn3m i new[i] hi1).1
      have hidj := (hn3m j new[j] hj1).1
      rw [List.getElem?_map, List.getElem?_map, hi1, hj1] at hcon
      simp at hcon
      rw [hidi, hidj] at hcon
      omega
    · intro x hx hx2
      rcases List.mem_map.1 hx with ⟨p, hp, hxp⟩
      have hple : p.id ≤ m := maxId_bound hmpop p hp
      rcases List.mem_map.1 hx2 with ⟨q, hq, hxq⟩
      rcases List.mem_iff_getElem?.1 hq with ⟨j, hj⟩
      have hidq := (hn3m j q hj).1
      omega
  · refine ⟨m, hmpop, ?_, ?_⟩
    · intro j q hj
      rw [hdrop] at hj
      exact (hn3m j q hj).1
    · intro q hq p hp
      rw [hdrop] at hq
      rcases List.mem_iff_getElem?.1 hq with ⟨j, hj⟩
      have hid := (hn3m j q hj).1
      have hple : p.id ≤ m := maxId_bound hmpop p hp
      rw [hid]
      omega

/-- Witness for C2 at a concrete input: a two-agent table with distinct ids
steps to a table whose ids are still pairwise distinct. -/
theorem ids_unique_after_step_witness :
    NodupIds [⟨0, "M", 6, 1, 73, 0, 8, 0⟩, ⟨8, "F", 6, 1, 80, 0, 0, 0⟩] :=
  (ids_unique_after_step
    [⟨0, "M", 1, 1, 73, 0, -1, 0⟩, ⟨8, "F", 1, 1, 80, 0, -1, 0⟩] ⟨[], [], []⟩
    [⟨0, "M", 6, 1, 73, 0, 8, 0⟩, ⟨8, "F", 6, 1, 80, 0, 0, 0⟩] ⟨[], [], []⟩
    (by unfold NodupIds; decide) (by decide)).1

/-! ## C8 -/

/-- C8: within one step, mortality runs strictly before aging: the mortality
pass never changes any age (it evaluates each agent at its age as of entering
the step), the aging pass then adds exactly 5 to each agent left alive by
mortality and leaves dead agents' ages unchanged, and through the whole step
each surviving original agent ends with exactly that age. -/
theorem mortality_before_aging (population : List Agent) (r : RandState) :
    (∀ (i : Nat) (p q : Agent), population[i]? = some p →
      ((death population r).1)[i]? = some q →
      q.age = p.age ∧
      (aging_update (death population r).1)[i]? =
        some (if q.alive = 1 then { q with age := q.age + 5 } else q)) ∧
    (∀ (res : List Agent) (r' : RandState),
      mainStep population r = some (res, r') →
      ∀ (i : Nat) (p q : Agent), population[i]? = some p →
        ((death population r).1)[i]? = some q →
        ∃ z, res[i]? = some z ∧
          z.age = if q.alive = 1 then p.age + 5 else p.age) := by
  have hpart1 : ∀ (i : Nat) (p q : Agent), population[i]? = some p →
      ((death population r).1)[i]? = some q →
      q.age = p.age ∧
      (aging_update (death population r).1)[i]? =
        some (if q.alive = 1 then { q with age := q.age + 5 } else q) := by
    intro i p q hp hq
    rcases death_getElem? population r i p hp with ⟨q', hq', hs⟩
    rw [hq'] at hq
    injection hq with hq
    subst hq
    refine ⟨hs.2.2.1, ?_⟩
    rw [aging_update_getElem?, hq']
    rfl
  refine ⟨hpart1, ?_⟩
  intro res r' h i p q hp hq
  rcases mainStep_eq_some h with ⟨couples, hc, hrep⟩
  rcases reproduce_eq_some hrep with ⟨m, hm, hres, _⟩
  obtain ⟨l1, l2, l3, l4⟩ := reproduce_fold_spec couples
    ⟨pop4Of population r, [], m + 1, (pairsOf population r).2⟩
  -- the record of agent i as seen by reproduce
  have hpop4 : (pop4Of population r)[i]? =
      some ((pairsOf population r).1.foldl (fun a mw => pairUpd mw a)
        (fertilityUpdateAgent
          (if q.alive = 1 then { q with age := q.age + 5 } else q))) := by
    unfold pop4Of pop3Of
    rw [apply_pairs_getElem?, fertility_update_getElem?, aging_update_getElem?,
      hq]
    rfl
  rcases l3 i _ hpop4 with ⟨z, hz, hsz, _⟩
  have hilt : i < population.length := by
    rcases List.getElem?_eq_some_iff.1 hp with ⟨hlt, _⟩
    exact hlt
  have hreslt : i <
      (couples.foldl reproduceStep
        ⟨pop4Of population r, [], m + 1, (pairsOf population r).2⟩).pop.length := by
    rw [l1, pop4Of_length]
    exact hilt
  refine ⟨z, ?_, ?_⟩
  · rw [hres, List.getElem?_append_left hreslt]
    exact hz
  · have hage1 : z.age =
        ((pairsOf population r).1.foldl (fun a mw => pairUpd mw a)
          (fertilityUpdateAgent
            (if q.alive = 1 then { q with age := q.age + 5 } else q))).age :=
      hsz.2.2.1
    have hage2 := (pairsFold_sameExceptPartner (pairsOf population r).1
      (fertilityUpdateAgent
        (if q.alive = 1 then { q with age := q.age + 5 } else q))).2.2.1
    have hage3 := (fup_other_fields
      (if q.alive = 1 then { q with age := q.age + 5 } else q)).2.2.1
    have hqp : q.age = p.age := (hpart1 i p q hp hq).1
    rw [hage1, hage2, hage3]
    by_cases ha : q.alive = 1 <;> simp [ha, hqp]

/-- Witness for C8 at a concrete input: an agent entering the step at age 15
is evaluated for mortality at 15 (and so survives untouched), then aged to
20. -/
theorem mortality_before_aging_witness :
    (aging_update (death [⟨2, "F", 15, 1, 50, 1, -1, 0⟩] ⟨[], [], []⟩).1)[0]? =
      some ⟨2, "F", 20, 1, 50, 1, -1, 0⟩ := by
  have h := (mortality_before_aging [⟨2, "F", 15, 1, 50, 1, -1, 0⟩]
    ⟨[], [], []⟩).1 0 ⟨2, "F", 15, 1, 50, 1, -1, 0⟩ ⟨2, "F", 15, 1, 50, 1, -1, 0⟩
    (by decide) (by decide)
  rw [h.2]
  decide

/-! ## C7 -/

lemma getAllCouplesAux_mem (population : List Agent) :
    ∀ (rest : List Agent) (visited : List Int) (cs : List (Agent × Agent)),
      getAllCouplesAux population rest visited = some cs →
      ∀ mw ∈ cs, mw.1 ∈ rest ∧ mw.2 ∈ population := by
  intro rest
  induction rest with
  | nil =>
    intro visited cs h mw hmw
    unfold getAllCouplesAux at h
    injection h with h
    subst h
    simp at hmw
  | cons p ps ih =>
    intro visited cs h mw hmw
    unfold getAllCouplesAux at h
    by_cases hcond : p.partner_id ≠ -1 ∧ p.id ∉ visited
    · rw [if_pos hcond] at h
      cases hf : population.find? (fun x => x.id = p.partner_id) with
      | none =>
        rw [hf] at h
        simp at h
      | some partner =>
        rw [hf] at h
        dsimp only at h
        cases hrest : getAllCouplesAux population ps
            (p.id :: partner.id :: visited) with
        | none =>
          rw [hrest] at h
          simp at h
        | some rest' =>
          rw [hrest] at h
          injection h with h
          subst h
          rcases List.mem_cons.1 hmw with hmw | hmw
          · subst hmw
            exact ⟨List.mem_cons_self _ _, List.mem_of_find?_eq_some hf⟩
          · rcases ih _ _ hrest mw hmw with ⟨h1, h2⟩
            exact ⟨List.mem_cons_of_mem _ h1, h2⟩
    · rw [if_neg hcond] at h
      rcases ih _ _ h mw hmw with ⟨h1, h2⟩
      exact ⟨List.mem_cons_of_mem _ h1, h2⟩

lemma get_all_couples_mem {population : List Agent}
    {cs : List (Agent × Agent)} (h : get_all_couples population = some cs) :
    ∀ mw ∈ cs, mw.1 ∈ population ∧ mw.2 ∈ population :=
  getAllCouplesAux_mem population population [] cs h

lemma reproduce_fold_frame :
    ∀ (couples : List (Agent × Agent)) (s : RepState) (i : Nat) (p : Agent),
      (∀ mw ∈ couples, mw.1.alive = 1 → mw.2.alive = 1 →
        mw.1.id ≠ p.id ∧ mw.2.id ≠ p.id) →
      s.pop[i]? = some p → (couples.foldl reproduceStep s).pop[i]? = some p := by
  intro couples
  induction couples with
  | nil =>
    intro s i p _ hp
    exact hp
  | cons mw rest ih =>
    intro s i p hsafe hp
    rcases Decidable.em (mw.1.alive = 1 ∧ mw.2.alive = 1 ∧ mw.1.fertility = 1 ∧
        mw.2.fertility = 1) with he | he
    · rcases Decidable.em ((nextFloat s.rand).1 < 1/2) with hu | hu
      · rw [List.foldl_cons, reproduceStep_conception s mw
          ⟨he.1, he.2.1, he.2.2.1, he.2.2.2⟩ hu]
        apply ih _ i p (fun mw' hmw' => hsafe mw' (List.mem_cons_of_mem _ hmw'))
        have hids := hsafe mw (List.mem_cons_self _ _) he.1 he.2.1
        have h1 : (bumpChildren s.pop mw.1.id)[i]? = some p := by
          rw [bumpChildren_getElem?, hp]
          simp [show ¬p.id = mw.1.id from fun hh => hids.1 hh.symm]
        show (bumpChildren (bumpChildren s.pop mw.1.id) mw.2.id)[i]? = some p
        rw [bumpChildren_getElem?, h1]
        simp [show ¬p.id = mw.2.id from fun hh => hids.2 hh.symm]
      · rw [List.foldl_cons, reproduceStep_noconception s mw
          ⟨he.1, he.2.1, he.2.2.1, he.2.2.2⟩ hu]
        exact ih _ i p (fun mw' hmw' => hsafe mw' (List.mem_cons_of_mem _ hmw')) hp
    · rw [List.foldl_cons, reproduceStep_skip s mw he]
      exact ih _ i p (fun mw' hmw' => hsafe mw' (List.mem_cons_of_mem _ hmw')) hp

/-- C7 counterexample: the fertility pass does not filter by `alive`, so it
changes a dead fertile 80-year-old's `fertility` field from 1 to 0 —
contradicting the claim that the fertility update leaves every field of a
dead agent unchanged. -/
theorem dead_agent_fertility_changed_counterexample :
    ((⟨4, "M", 80, 0, 60, 1, -1, 0⟩ : Agent).alive = 0) ∧
    (fertility_update [⟨4, "M", 80, 0, 60, 1, -1, 0⟩])[0]? =
      some ⟨4, "M", 80, 0, 60, 0, -1, 0⟩ := by
  decide

/-- C7 (amended): a dead agent (`alive = 0`) is never removed from the table
and is untouched by aging, excluded from single extraction and from the
census, and left unchanged by reproduction; the fertility pass, however,
does NOT skip dead agents and may change their `fertility` field. -/
theorem dead_agents_frame :
    (∀ (population : List Agent) (i : Nat) (p : Agent),
      population[i]? = some p → p.alive = 0 →
      (aging_update population)[i]? = some p) ∧
    (∀ (population : List Agent) (p : Agent), p.alive = 0 →
      p ∉ (get_single_people population).1 ∧
      p ∉ (get_single_people population).2) ∧
    (∀ (population : List Agent) (p : Agent), p.alive = 0 →
      census (p :: population) = census population) ∧
    (∀ (population : List Agent) (r : RandState) (i : Nat) (p : Agent),
      NodupIds population → population[i]? = some p → p.alive = 0 →
      ∀ (couples : List (Agent × Agent)) (res : List Agent) (r' : RandState),
        get_all_couples population = some couples →
        reproduce population couples r = some (res, r') →
        res[i]? = some p) ∧
    (∀ (population : List Agent) (r : RandState) (res : List Agent)
      (r' : RandState), mainStep population r = some (res, r') →
      population.length ≤ res.length) := by
  refine ⟨?_, ?_, ?_, ?_, ?_⟩
  · intro population i p hp hdead
    rw [aging_update_getElem?, hp]
    simp [show ¬p.alive = 1 by omega]
  · intro population p hdead
    constructor
    · intro hmem
      have := (List.mem_filter.1 hmem).2
      simp at this
      omega
    · intro hmem
      have := (List.mem_filter.1 hmem).2
      simp at this
      omega
  · intro population p hdead
    unfold census
    rw [List.countP_cons]
    simp [show ¬p.alive = 1 by omega]
  · intro population r i p hN hp hdead couples res r' hc hrep
    rcases reproduce_eq_some hrep with ⟨m, hm, hres, _⟩
    obtain ⟨l1, _, _, _⟩ := reproduce_fold_spec couples
      ⟨population, [], m + 1, r⟩
    have hsafe : ∀ mw ∈ couples, mw.1.alive = 1 → mw.2.alive = 1 →
        mw.1.id ≠ p.id ∧ mw.2.id ≠ p.id := by
      intro mw hmw h1 h2
      rcases get_all_couples_mem hc mw hmw with ⟨hm1, hm2⟩
      have hpmem : p ∈ population := by
        rcases List.getElem?_eq_some_iff.1 hp with ⟨hlt, hget⟩
        rw [← hget]
        exact List.getElem_mem hlt
      constructor
      · intro hid
        have : mw.1 = p := List.inj_on_of_nodup_map hN hm1 hpmem hid
        rw [this] at h1
        omega
      · intro hid
        have : mw.2 = p := List.inj_on_of_nodup_map hN hm2 hpmem hid
        rw [this] at h2
        omega
    have hfold := reproduce_fold_frame couples ⟨population, [], m + 1, r⟩ i p
      hsafe hp
    have hilt : i < population.length := by
      rcases List.getElem?_eq_some_iff.1 hp with ⟨hlt, _⟩
      exact hlt
    have hlt2 : i < (couples.foldl reproduceStep
        ⟨population, [], m + 1, r⟩).pop.length := by
      rw [l1]
      exact hilt
    rw [hres, List.getElem?_append_left hlt2]
    exact hfold
  · intro population r res r' h
    rcases mainStep_eq_some h with ⟨couples, hc, hrep⟩
    rcases reproduce_eq_some hrep with ⟨m, hm, hres, _⟩
    obtain ⟨l1, _, _, _⟩ := reproduce_fold_spec couples
      ⟨pop4Of population r, [], m + 1, (pairsOf population r).2⟩
    rw [hres]
    rw [List.length_append]
    have : (couples.foldl reproduceStep
        ⟨pop4Of population r, [], m + 1, (pairsOf population r).2⟩).pop.length =
        population.length := by
      rw [l1]
      exact pop4Of_length population r
    omega

/-- Witness for C7 (amended) at a concrete input: a dead agent is untouched
by the aging pass. -/
theorem dead_agents_frame_witness :
    (aging_update [⟨9, "M", 50, 0, 10, 0, -1, 3⟩])[0]? =
      some ⟨9, "M", 50, 0, 10, 0, -1, 3⟩ :=
  dead_agents_frame.1 [⟨9, "M", 50, 0, 10, 0, -1, 3⟩] 0
    ⟨9, "M", 50, 0, 10, 0, -1, 3⟩ (by decide) (by decide)

/-! ## C1: pairing lemmas -/

lemma range_map_getD (l : List Agent) :
    (List.range l.length).map (fun i => l.getD i default) = l := by
  apply List.ext_getElem?
  intro n
  by_cases hn : n < l.length
  · rw [List.getElem?_map, List.getElem?_range hn,
      List.getElem?_eq_getElem hn]
    simp [List.getD_eq_getElem?_getD, List.getElem?_eq_getElem hn]
  · push_neg at hn
    rw [List.getElem?_eq_none (by simpa using hn),
      List.getElem?_eq_none (by simpa using hn)]

lemma shuffle_perm (l : List Agent) (r : RandState) :
    (shuffle l r).1.Perm l := by
  unfold shuffle applyPerm
  dsimp only
  split_ifs with hp
  · have h := List.Perm.map (fun i => l.getD i default) hp
    rw [range_map_getD] at h
    exact h
  · exact List.Perm.refl l

lemma apply_pairs_nil (population : List Agent) :
    apply_pairs population [] = population := rfl

lemma apply_pairs_cons (population : List Agent) (mw : Agent × Agent)
    (t : List (Agent × Agent)) :
    apply_pairs population (mw :: t) =
      apply_pairs (population.map (pairUpd mw)) t := by
  rw [apply_pairs_eq_map, apply_pairs_eq_map]
  simp [List.map_map, Function.comp]

lemma pairUpd_eq_first {x : Agent} (m w : Agent) (h : x.id = m.id)
    (hne : m.id ≠ w.id) : pairUpd (m, w) x = { x with partner_id := w.id } := by
  unfold pairUpd
  rw [if_pos h]
  apply if_neg
  intro hc
  have hc2 : x.id = w.id := hc
  rw [h] at hc2
  exact hne hc2

lemma pairUpd_eq_second {x : Agent} (m w : Agent) (h1 : ¬x.id = m.id)
    (h2 : x.id = w.id) : pairUpd (m, w) x = { x with partner_id := m.id } := by
  unfold pairUpd
  rw [if_neg h1, if_pos h2]

lemma pairUpd_eq_self {x : Agent} (m w : Agent) (h1 : ¬x.id = m.id)
    (h2 : ¬x.id = w.id) : pairUpd (m, w) x = x := by
  unfold pairUpd
  rw [if_neg h1, if_neg h2]

lemma nodupIds_inj {population : List Agent} (hN : NodupIds population)
    {a b : Agent} (ha : a ∈ population) (hb : b ∈ population)
    (hab : a.id = b.id) : a = b :=
  List.inj_on_of_nodup_map hN ha hb hab

lemma map_pairUpd_symm (population : List Agent) (m w : Agent)
    (hN : NodupIds population) (hS : Symm population)
    (hIds : ∀ p ∈ population, p.id ≠ -1)
    (ha : ∃ a ∈ population, a.id = m.id ∧ a.partner_id = -1)
    (hb : ∃ b ∈ population, b.id = w.id ∧ b.partner_id = -1)
    (hmw : m.id ≠ w.id) :
    Symm (population.map (pairUpd (m, w))) := by
  rcases ha with ⟨a, hamem, haid, hasingle⟩
  rcases hb with ⟨b, hbmem, hbid, hbsingle⟩
  intro y hy hyp
  rcases List.mem_map.1 hy with ⟨x, hxmem, hxy⟩
  by_cases hx1 : x.id = m.id
  · have hyval : y = { x with partner_id := w.id } := by
      rw [← hxy, pairUpd_eq_first m w hx1 hmw]
    refine ⟨pairUpd (m, w) b, List.mem_map_of_mem _ hbmem, ?_, ?_⟩
    · rw [pairUpd_eq_second m w (by rw [hbid]; exact fun hh => hmw hh.symm) hbid,
        hyval]
      simp [hbid]
    · rw [pairUpd_eq_second m w (by rw [hbid]; exact fun hh => hmw hh.symm) hbid,
        hyval]
      simp [hx1]
  · by_cases hx2 : x.id = w.id
    · have hyval : y = { x with partner_id := m.id } := by
        rw [← hxy, pairUpd_eq_second m w hx1 hx2]
      refine ⟨pairUpd (m, w) a, List.mem_map_of_mem _ hamem, ?_, ?_⟩
      · rw [pairUpd_eq_first m w haid hmw, hyval]
        simp [haid]
      · rw [pairUpd_eq_first m w haid hmw, hyval]
        simp [hx2]
    · have hyval : y = x := by
        rw [← hxy, pairUpd_eq_self m w hx1 hx2]
      subst hyval
      rcases hS y hxmem hyp with ⟨q, hqmem, hqid, hqpartner⟩
      have hqm : ¬q.id = m.id := by
        intro hh
        have : q = a := nodupIds_inj hN hqmem hamem (by rw [hh, haid])
        rw [this] at hqpartner
        rw [hasingle] at hqpartner
        exact hIds y hxmem hqpartner.symm
      have hqw : ¬q.id = w.id := by
        intro hh
        have : q = b := nodupIds_inj hN hqmem hbmem (by rw [hh, hbid])
        rw [this] at hqpartner
        rw [hbsingle] at hqpartner
        exact hIds y hxmem hqpartner.symm
      refine ⟨q, ?_, hqid, hqpartner⟩
      have : pairUpd (m, w) q = q := pairUpd_eq_self m w hqm hqw
      rw [← this]
      exact List.mem_map_of_mem _ hqmem

lemma apply_pairs_zip_symm :
    ∀ (ms ws population : List Agent),
      NodupIds population → Symm population →
      (∀ p ∈ population, p.id ≠ -1) →
      (∀ a ∈ ms, a ∈ population ∧ a.partner_id = -1 ∧ a.sex = "M") →
      (∀ b ∈ ws, b ∈ population ∧ b.partner_id = -1 ∧ b.sex = "F") →
      (ms.map Agent.id).Nodup → (ws.map Agent.id).Nodup →
      Symm (apply_pairs population (ms.zip ws)) := by
  intro ms
  induction ms with
  | nil =>
    intro ws population _ hS _ _ _ _ _
    simpa [apply_pairs_nil] using hS
  | cons m mt ih =>
    intro ws population hN hS hIds hms hws hmsN hwsN
    cases ws with
    | nil => simpa [apply_pairs_nil] using hS
    | cons w wt =>
      rw [List.zip_cons_cons, apply_pairs_cons]
      obtain ⟨hm_mem, hm_single, hm_sex⟩ := hms m (List.mem_cons_self m mt)
      obtain ⟨hw_mem, hw_single, hw_sex⟩ := hws w (List.mem_cons_self w wt)
      have hmw : m.id ≠ w.id := by
        intro hh
        have heq : m = w := nodupIds_inj hN hm_mem hw_mem hh
        rw [heq, hw_sex] at hm_sex
        exact absurd hm_sex (by decide)
      have hmtN : (mt.map Agent.id).Nodup := (List.nodup_cons.1 hmsN).2
      have hwtN : (wt.map Agent.id).Nodup := (List.nodup_cons.1 hwsN).2
      apply ih wt (population.map (pairUpd (m, w)))
      · show ((population.map (pairUpd (m, w))).map Agent.id).Nodup
        rw [map_id_of_preserve (pairUpd_id (m, w)) population]
        exact hN
      · exact map_pairUpd_symm population m w hN hS hIds
          ⟨m, hm_mem, rfl, hm_single⟩ ⟨w, hw_mem, rfl, hw_single⟩ hmw
      · intro p hp
        rcases List.mem_map.1 hp with ⟨x, hx, hxp⟩
        rw [← hxp, pairUpd_id]
        exact hIds x hx
      · intro a ha
        obtain ⟨ha_mem, ha_single, ha_sex⟩ := hms a (List.mem_cons_of_mem m ha)
        have ham : ¬a.id = m.id := by
          intro hh
          have : m.id ∈ mt.map Agent.id := by
            rw [← hh]
            exact List.mem_map_of_mem Agent.id ha
          exact (List.nodup_cons.1 hmsN).1 this
        have haw : ¬a.id = w.id := by
          intro hh
          have heq : a = w := nodupIds_inj hN ha_mem hw_mem hh
          rw [heq, hw_sex] at ha_sex
          exact absurd ha_sex (by decide)
        refine ⟨?_, ha_single, ha_sex⟩
        rw [show a = pairUpd (m, w) a from (pairUpd_eq_self m w ham haw).symm]
        exact List.mem_map_of_mem _ ha_mem
      · intro b hb
        obtain ⟨hb_mem, hb_single, hb_sex⟩ := hws b (List.mem_cons_of_mem w hb)
        have hbm : ¬b.id = m.id := by
          intro hh
          have heq : b = m := nodupIds_inj hN hb_mem hm_mem hh
          rw [heq, hm_sex] at hb_sex
          exact absurd hb_sex (by decide)
        have hbw : ¬b.id = w.id := by
          intro hh
          have : w.id ∈ wt.map Agent.id := by
            rw [← hh]
            exact List.mem_map_of_mem Agent.id hb
          exact (List.nodup_cons.1 hwsN).1 this
        refine ⟨?_, hb_single, hb_sex⟩
        rw [show b = pairUpd (m, w) b from (pairUpd_eq_self m w hbm hbw).symm]
        exact List.mem_map_of_mem _ hb_mem
      · exact hmtN
      · exact hwtN

lemma onePartner_of_symm {population : List Agent} (hN : NodupIds population)
    (hS : Symm population) : OnePartner population := by
  intro p hp q hq hpne hpq
  rcases hS p hp hpne with ⟨cp, hcpmem, hcpid, hcppartner⟩
  rcases hS q hq (by rw [← hpq]; exact hpne) with ⟨cq, hcqmem, hcqid, hcqpartner⟩
  have hc : cp = cq := nodupIds_inj hN hcpmem hcqmem (by rw [hcpid, hcqid, hpq])
  have hid : p.id = q.id := by rw [← hcppartner, hc, hcqpartner]
  exact nodupIds_inj hN hp hq hid

lemma reproduce_preserves_partner {table : List Agent}
    {couples : List (Agent × Agent)} {r2 : RandState} {res : List Agent}
    {r2' : RandState} (hS : Symm table)
    (h : reproduce table couples r2 = some (res, r2')) :
    Symm res ∧ ∀ (i : Nat) (p : Agent), table[i]? = some p →
      ∃ q, res[i]? = some q ∧ q.partner_id = p.partner_id := by
  rcases reproduce_eq_some h with ⟨m, hm, hres, _⟩
  obtain ⟨l1, l2, l3, l4⟩ := reproduce_fold_spec couples ⟨table, [], m + 1, r2⟩
  rcases l4 with ⟨new, hn1, hn2, hn3⟩
  simp only [List.nil_append] at hn1
  have hlen : (couples.foldl reproduceStep ⟨table, [], m + 1, r2⟩).pop.length =
      table.length := l1
  constructor
  · intro y hy hyp
    rw [hres] at hy
    rcases List.mem_append.1 hy with hy | hy
    · rcases List.mem_iff_getElem?.1 hy with ⟨i, hi⟩
      have hilt : i < table.length := by
        rcases List.getElem?_eq_some_iff.1 hi with ⟨hlt, _⟩
        rw [hlen] at hlt
        exact hlt
      have hpi : table[i]? = some table[i] := List.getElem?_eq_getElem hilt
      rcases l3 i table[i] hpi with ⟨q, hq, hsq, _⟩
      have hyq : y = q := by
        rw [hi] at hq
        injection hq
      subst hyq
      have hpne : table[i].partner_id ≠ -1 := by
        rw [← hsq.2.2.2.2.2.2]
        exact hyp
      rcases hS table[i] (List.getElem_mem hilt) hpne with
        ⟨q0, hq0mem, hq0id, hq0partner⟩
      rcases List.mem_iff_getElem?.1 hq0mem with ⟨j, hj⟩
      rcases l3 j q0 hj with ⟨qq, hqq, hsqq, _⟩
      refine ⟨qq, ?_, ?_, ?_⟩
      · rw [hres]
        apply List.mem_append_left
        exact List.mem_iff_getElem?.2 ⟨j, hqq⟩
      · rw [hsqq.1, hq0id, hsq.2.2.2.2.2.2]
      · rw [hsqq.2.2.2.2.2.2, hq0partner, hsq.1]
    · have hy2 : y ∈ new := by
        rw [← hn1]
        exact hy
      rcases List.mem_iff_getElem?.1 hy2 with ⟨j, hj⟩
      have := (hn3 j y hj).2.2.2.2.1
      exact absurd this hyp
  · intro i p hp
    have hilt : i < table.length := by
      rcases List.getElem?_eq_some_iff.1 hp with ⟨hlt, _⟩
      exact hlt
    rcases l3 i p hp with ⟨q, hq, hsq, _⟩
    refine ⟨q, ?_, hsq.2.2.2.2.2.2⟩
    rw [hres, List.getElem?_append_left (by rw [hlen]; exact hilt)]
    exact hq

/-- C1: partnership symmetry is invariant: committing the pairs formed from
the extracted singles (`apply_pairs` over `pair_people` of
`get_single_people`) preserves symmetry and leaves no agent with more than
one partner, because both sides of each new pair are set together; and
`reproduce` preserves symmetry and never alters any existing agent's
`partner_id`. -/
theorem partnership_symmetry_invariant (population : List Agent)
    (r : RandState) (hN : NodupIds population) (hS : Symm population)
    (hIds : ∀ p ∈ population, p.id ≠ -1) :
    (Symm (apply_pairs population
        (pair_people (get_single_people population).1
          (get_single_people population).2 r).1) ∧
      OnePartner (apply_pairs population
        (pair_people (get_single_people population).1
          (get_single_people population).2 r).1)) ∧
    (∀ (table : List Agent) (couples : List (Agent × Agent)) (r2 : RandState)
      (res : List Agent) (r2' : RandState), Symm table →
      reproduce table couples r2 = some (res, r2') →
      Symm res ∧ ∀ (i : Nat) (p : Agent), table[i]? = some p →
        ∃ q, res[i]? = some q ∧ q.partner_id = p.partner_id) := by
  have hpp : (pair_people (get_single_people population).1
      (get_single_people population).2 r).1 =
      (shuffle (get_single_people population).1 r).1.zip
        (shuffle (get_single_people population).2
          (shuffle (get_single_people population).1 r).2).1 := rfl
  have hcommit : Symm (apply_pairs population
      (pair_people (get_single_people population).1
        (get_single_people population).2 r).1) := by
    rw [hpp]
    apply apply_pairs_zip_symm _ _ population hN hS hIds
    · intro a ha
      have ha2 : a ∈ (get_single_people population).1 :=
        (shuffle_perm _ r).mem_iff.1 ha
      have hm := List.mem_filter.1 ha2
      have hprops := hm.2
      simp only [decide_eq_true_eq] at hprops
      exact ⟨hm.1, hprops.2.1, hprops.2.2⟩
    · intro b hb
      have hb2 : b ∈ (get_single_people population).2 :=
        (shuffle_perm _ _).mem_iff.1 hb
      have hm := List.mem_filter.1 hb2
      have hprops := hm.2
      simp only [decide_eq_true_eq] at hprops
      exact ⟨hm.1, hprops.2.1, hprops.2.2⟩
    · have hsub : ((get_single_people population).1.map Agent.id).Sublist
          (population.map Agent.id) :=
        List.Sublist.map _ (List.filter_sublist population)
      have hmenN := List.Nodup.sublist hsub hN
      exact (List.Perm.nodup_iff
        (List.Perm.map Agent.id (shuffle_perm _ r))).2 hmenN
    · have hsub : ((get_single_people population).2.map Agent.id).Sublist
          (population.map Agent.id) :=
        List.Sublist.map _ (List.filter_sublist population)
      have hwomenN := List.Nodup.sublist hsub hN
      exact (List.Perm.nodup_iff
        (List.Perm.map Agent.id (shuffle_perm _ _))).2 hwomenN
  refine ⟨⟨hcommit, ?_⟩, ?_⟩
  · apply onePartner_of_symm ?_ hcommit
    show ((apply_pairs population _).map Agent.id).Nodup
    rw [apply_pairs_ids]
    exact hN
  · intro table couples r2 res r2' hS2 hrep
    exact reproduce_preserves_partner hS2 hrep

/-- Witness for C1 at a concrete input: committing the single pair formed
from one single man and one single woman yields a symmetric table. -/
theorem partnership_symmetry_invariant_witness :
    Symm (apply_pairs [⟨1, "M", 30, 1, 70, 1, -1, 0⟩, ⟨2, "F", 25, 1, 70, 1, -1, 0⟩]
      (pair_people
        (get_single_people
          [⟨1, "M", 30, 1, 70, 1, -1, 0⟩, ⟨2, "F", 25, 1, 70, 1, -1, 0⟩]).1
        (get_single_people
          [⟨1, "M", 30, 1, 70, 1, -1, 0⟩, ⟨2, "F", 25, 1, 70, 1, -1, 0⟩]).2
        ⟨[], [], []⟩).1) :=
  (partnership_symmetry_invariant
    [⟨1, "M", 30, 1, 70, 1, -1, 0⟩, ⟨2, "F", 25, 1, 70, 1, -1, 0⟩] ⟨[], [], []⟩
    (by unfold NodupIds; decide) (by unfold Symm; decide) (by decide)).1.1

/-! ## C10: couple extraction -/

lemma getAllCouplesAux_isSome (population : List Agent)
    (hRI : ∀ p ∈ population, p.partner_id ≠ -1 →
      ∃ q ∈ population, q.id = p.partner_id) :
    ∀ (rest : List Agent) (visited : List Int),
      (∀ a ∈ rest, a ∈ population) →
      ∃ cs, getAllCouplesAux population rest visited = some cs := by
  intro rest
  induction rest with
  | nil =>
    intro visited _
    exact ⟨[], rfl⟩
  | cons p ps ih =>
    intro visited hsub
    unfold getAllCouplesAux
    by_cases hcond : p.partner_id ≠ -1 ∧ p.id ∉ visited
    · rw [if_pos hcond]
      cases hf : population.find? (fun x => x.id = p.partner_id) with
      | none =>
        exfalso
        rcases hRI p (hsub p (List.mem_cons_self p ps)) hcond.1 with
          ⟨q, hq, hqid⟩
        have := List.find?_eq_none.1 hf q hq
        simp [hqid] at this
      | some partner =>
        dsimp only
        rcases ih (p.id :: partner.id :: visited)
          (fun a ha => hsub a (List.mem_cons_of_mem p ha)) with ⟨cs, hcs⟩
        rw [hcs]
        exact ⟨(p, partner) :: cs, rfl⟩
    · rw [if_neg hcond]
      exact ih visited (fun a ha => hsub a (List.mem_cons_of_mem p ha))

lemma getAllCouplesAux_mutual (population : List Agent)
    (hN : NodupIds population) (hS : Symm population) :
    ∀ (rest : List Agent) (visited : List Int) (cs : List (Agent × Agent)),
      (∀ a ∈ rest, a ∈ population) →
      getAllCouplesAux population rest visited = some cs →
      ∀ mw ∈ cs, mw.2.id = mw.1.partner_id ∧ mw.2.partner_id = mw.1.id := by
  intro rest
  induction rest with
  | nil =>
    intro visited cs _ h mw hmw
    unfold getAllCouplesAux at h
    injection h with h
    subst h
    simp at hmw
  | cons p ps ih =>
    intro visited cs hsub h mw hmw
    unfold getAllCouplesAux at h
    by_cases hcond : p.partner_id ≠ -1 ∧ p.id ∉ visited
    · rw [if_pos hcond] at h
      cases hf : population.find? (fun x => x.id = p.partner_id) with
      | none =>
        rw [hf] at h
        simp at h
      | some partner =>
        rw [hf] at h
        dsimp only at h
        cases hrest2 : getAllCouplesAux population ps
            (p.id :: partner.id :: visited) with
        | none =>
          rw [hrest2] at h
          simp at h
        | some cs' =>
          rw [hrest2] at h
          injection h with h
          subst h
          rcases List.mem_cons.1 hmw with hmw | hmw
          · subst hmw
            have hpartner_id : partner.id = p.partner_id := by
              have := List.find?_some hf
              simpa using this
            have hpartner_mem : partner ∈ population :=
              List.mem_of_find?_eq_some hf
            rcases hS p (hsub p (List.mem_cons_self p ps)) hcond.1 with
              ⟨q0, hq0mem, hq0id, hq0partner⟩
            have hpq : partner = q0 := nodupIds_inj hN hpartner_mem hq0mem
              (by rw [hpartner_id, hq0id])
            refine ⟨hpartner_id, ?_⟩
            rw [hpq]
            exact hq0partner
          · exact ih _ _ (fun a ha => hsub a (List.mem_cons_of_mem p ha))
              hrest2 mw hmw
    · rw [if_neg hcond] at h
      exact ih _ _ (fun a ha => hsub a (List.mem_cons_of_mem p ha)) h mw hmw

lemma getAllCouplesAux_perm (population : List Agent)
    (hN : NodupIds population) (hS : Symm population)
    (hNS : NoSelfPartner population) (hIds : ∀ p ∈ population, p.id ≠ -1) :
    ∀ (rest : List Agent) (visited : List Int) (cs : List (Agent × Agent)),
      rest.Sublist population →
      (∀ a ∈ population, a.partner_id ≠ -1 → a.id ∉ visited → a ∈ rest) →
      (∀ a ∈ population, ∀ b ∈ population, a.partner_id = b.id →
        b.partner_id = a.id → (a.id ∈ visited ↔ b.id ∈ visited)) →
      getAllCouplesAux population rest visited = some cs →
      ((cs.map (fun mw => [mw.1, mw.2])).flatten).Perm
        (rest.filter (fun p => p.partner_id ≠ -1 ∧ p.id ∉ visited)) := by
  have hpop_nodup : population.Nodup := List.Nodup.of_map Agent.id hN
  intro rest
  induction rest with
  | nil =>
    intro visited cs _ _ _ h
    unfold getAllCouplesAux at h
    injection h with h
    subst h
    simp
  | cons p ps ih =>
    intro visited cs hsub hK hH h
    have hrest_nodup : (p :: ps).Nodup := List.Nodup.sublist hsub hpop_nodup
    have hp_nin_ps : p ∉ ps := (List.nodup_cons.1 hrest_nodup).1
    have hps_sub : ps.Sublist population := List.sublist_of_cons_sublist hsub
    have hp_mem : p ∈ population := hsub.subset (List.mem_cons_self p ps)
    unfold getAllCouplesAux at h
    by_cases hcond : p.partner_id ≠ -1 ∧ p.id ∉ visited
    · rw [if_pos hcond] at h
      cases hf : population.find? (fun x => x.id = p.partner_id) with
      | none =>
        rw [hf] at h
        simp at h
      | some partner =>
        rw [hf] at h
        dsimp only at h
        cases hrest2 : getAllCouplesAux population ps
            (p.id :: partner.id :: visited) with
        | none =>
          rw [hrest2] at h
          simp at h
        | some cs' =>
          rw [hrest2] at h
          injection h with h
          subst h
          -- facts about the looked-up partner
          have hpartner_id : partner.id = p.partner_id := by
            have := List.find?_some hf
            simpa using this
          have hpartner_mem : partner ∈ population :=
            List.mem_of_find?_eq_some hf
          rcases hS p hp_mem hcond.1 with ⟨q0, hq0mem, hq0id, hq0partner⟩
          have hpq : partner = q0 := nodupIds_inj hN hpartner_mem hq0mem
            (by rw [hpartner_id, hq0id])
          have hmutual : partner.partner_id = p.id := by
            rw [hpq]
            exact hq0partner
          have hqp_ne : partner ≠ p := by
            intro hh
            apply hNS p hp_mem
            rw [← hpartner_id, hh]
          have hq_unvis : partner.id ∉ visited := by
            intro hh
            exact hcond.2
              ((hH p hp_mem partner hpartner_mem hpartner_id.symm hmutual).2 hh)
          have hq_partnered : partner.partner_id ≠ -1 := by
            rw [hmutual]
            exact hIds p hp_mem
          have hq_in_ps : partner ∈ ps := by
            have hin : partner ∈ p :: ps :=
              hK partner hpartner_mem hq_partnered hq_unvis
            rcases List.mem_cons.1 hin with hh | hh
            · exact absurd hh hqp_ne
            · exact hh
          -- invariants for the tail call
          have hK2 : ∀ a ∈ population, a.partner_id ≠ -1 →
              a.id ∉ (p.id :: partner.id :: visited) → a ∈ ps := by
            intro a ha hap hav
            simp only [List.mem_cons] at hav
            push_neg at hav
            have hin : a ∈ p :: ps := hK a ha hap hav.2.2
            rcases List.mem_cons.1 hin with hh | hh
            · exact absurd (by rw [hh] : a.id = p.id) hav.1
            · exact hh
          have hH2 : ∀ a ∈ population, ∀ b ∈ population, a.partner_id = b.id →
              b.partner_id = a.id →
              (a.id ∈ (p.id :: partner.id :: visited) ↔
                b.id ∈ (p.id :: partner.id :: visited)) := by
            intro a ha b hb hab hba
            by_cases hap2 : a.id = p.id
            · have haeq : a = p := nodupIds_inj hN ha hp_mem hap2
              have hbq : b.id = partner.id := by
                rw [hpartner_id, ← hab, haeq]
              simp [hap2, hbq, List.mem_cons]
            · by_cases haq2 : a.id = partner.id
              · have haeq : a = partner := nodupIds_inj hN ha hpartner_mem haq2
                have hbp : b.id = p.id := by
                  rw [← hab, haeq, hmutual]
                simp [haq2, hbp, List.mem_cons]
              · have hbp2 : ¬b.id = p.id := by
                  intro hh
                  apply haq2
                  have hbeq : b = p := nodupIds_inj hN hb hp_mem hh
                  rw [← hba, hbeq, ← hpartner_id]
                have hbq2 : ¬b.id = partner.id := by
                  intro hh
                  apply hap2
                  have hbeq : b = partner := nodupIds_inj hN hb hpartner_mem hh
                  rw [← hba, hbeq, hmutual]
                simp only [List.mem_cons, hap2, haq2, hbp2, hbq2, false_or]
                exact hH a ha b hb hab hba
          have hperm := ih (p.id :: partner.id :: visited) cs' hps_sub hK2 hH2
            hrest2
          -- reassemble
          simp only [List.map_cons, List.flatten_cons, List.cons_append,
            List.nil_append]
          have hfp : (p :: ps).filter
              (fun x => decide (x.partner_id ≠ -1 ∧ x.id ∉ visited)) =
              p :: ps.filter
                (fun x => decide (x.partner_id ≠ -1 ∧ x.id ∉ visited)) := by
            rw [List.filter_cons_of_pos (by simp [hcond.1, hcond.2])]
          rw [hfp]
          refine List.Perm.cons p ?_
          have hqfilter : partner ∈ ps.filter
              (fun x => decide (x.partner_id ≠ -1 ∧ x.id ∉ visited)) :=
            List.mem_filter.2 ⟨hq_in_ps, by simp [hq_partnered, hq_unvis]⟩
          have hperm2 := List.perm_cons_erase hqfilter
          have hfilterN : (ps.filter
              (fun x => decide (x.partner_id ≠ -1 ∧ x.id ∉ visited))).Nodup :=
            List.Nodup.filter _ (List.nodup_cons.1 hrest_nodup).2
          have herase : (ps.filter
              (fun x => decide (x.partner_id ≠ -1 ∧ x.id ∉ visited))).erase
                partner =
              ps.filter (fun x => decide (x.partner_id ≠ -1 ∧
                x.id ∉ (p.id :: partner.id :: visited))) := by
            rw [List.Nodup.erase_eq_filter hfilterN partner, List.filter_filter]
            apply List.filter_congr
            intro x hx
            have hxmem : x ∈ population := hps_sub.subset hx
            have hxp : ¬x.id = p.id := by
              intro hh
              have hxeq : x = p := nodupIds_inj hN hxmem hp_mem hh
              rw [hxeq] at hx
              exact hp_nin_ps hx
            by_cases h3 : x = partner
            · simp [h3, List.mem_cons]
            · have hxq : ¬x.id = partner.id := by
                intro hh
                exact h3 (nodupIds_inj hN hxmem hpartner_mem hh)
              simp [h3, hxp, hxq, List.mem_cons]
          have hperm3 : ps.filter
              (fun x => decide (x.partner_id ≠ -1 ∧ x.id ∉ visited)) |>.Perm
              (partner :: ps.filter (fun x => decide (x.partner_id ≠ -1 ∧
                x.id ∉ (p.id :: partner.id :: visited)))) := by
            rw [herase] at hperm2
            exact hperm2
          exact (List.Perm.cons partner hperm).trans hperm3.symm
    · rw [if_neg hcond] at h
      have hK2 : ∀ a ∈ population, a.partner_id ≠ -1 → a.id ∉ visited →
          a ∈ ps := by
        intro a ha hap hav
        have hin : a ∈ p :: ps := hK a ha hap hav
        rcases List.mem_cons.1 hin with hh | hh
        · exfalso
          apply hcond
          rw [hh] at hap hav
          exact ⟨hap, hav⟩
        · exact hh
      have hperm := ih visited cs hps_sub hK2 hH h
      have hfp : (p :: ps).filter
          (fun x => decide (x.partner_id ≠ -1 ∧ x.id ∉ visited)) =
          ps.filter (fun x => decide (x.partner_id ≠ -1 ∧ x.id ∉ visited)) := by
        rw [List.filter_cons_of_neg (by simpa using hcond)]
      rw [hfp]
      exact hperm

/-- C10 counterexample: referential integrity alone does not give "each
couple is emitted exactly once".  In this table every `partner_id` resolves,
but two one-sided admirers (ids 3 and 4, traversed first) consume the ids of
the genuine mutual couple (ids 1 and 2) into the visited set, so that couple
is emitted zero times. -/
theorem couple_extraction_counterexample :
    (∀ p ∈ [(⟨3, "M", 30, 1, 70, 1, 1, 0⟩ : Agent), ⟨4, "M", 30, 1, 70, 1, 2, 0⟩,
        ⟨1, "M", 30, 1, 70, 1, 2, 0⟩, ⟨2, "F", 30, 1, 70, 1, 1, 0⟩],
      p.partner_id ≠ -1 →
      ∃ q ∈ [(⟨3, "M", 30, 1, 70, 1, 1, 0⟩ : Agent), ⟨4, "M", 30, 1, 70, 1, 2, 0⟩,
        ⟨1, "M", 30, 1, 70, 1, 2, 0⟩, ⟨2, "F", 30, 1, 70, 1, 1, 0⟩],
        q.id = p.partner_id) ∧
    ((⟨1, "M", 30, 1, 70, 1, 2, 0⟩ : Agent).partner_id =
      (⟨2, "F", 30, 1, 70, 1, 1, 0⟩ : Agent).id ∧
     (⟨2, "F", 30, 1, 70, 1, 1, 0⟩ : Agent).partner_id =
      (⟨1, "M", 30, 1, 70, 1, 2, 0⟩ : Agent).id) ∧
    get_all_couples [⟨3, "M", 30, 1, 70, 1, 1, 0⟩, ⟨4, "M", 30, 1, 70, 1, 2, 0⟩,
      ⟨1, "M", 30, 1, 70, 1, 2, 0⟩, ⟨2, "F", 30, 1, 70, 1, 1, 0⟩] =
      some [(⟨3, "M", 30, 1, 70, 1, 1, 0⟩, ⟨1, "M", 30, 1, 70, 1, 2, 0⟩),
            (⟨4, "M", 30, 1, 70, 1, 2, 0⟩, ⟨2, "F", 30, 1, 70, 1, 1, 0⟩)] ∧
    (∀ mw ∈ [((⟨3, "M", 30, 1, 70, 1, 1, 0⟩ : Agent), (⟨1, "M", 30, 1, 70, 1, 2, 0⟩ : Agent)),
        (⟨4, "M", 30, 1, 70, 1, 2, 0⟩, ⟨2, "F", 30, 1, 70, 1, 1, 0⟩)],
      ¬(mw.1.id = 1 ∧ mw.2.id = 2) ∧ ¬(mw.1.id = 2 ∧ mw.2.id = 1)) := by
  decide

/-- C10 (amended): under referential integrity of partner links the partner
lookup in `get_all_couples` never fails; when additionally partnership is
symmetric, ids are unique and no agent is its own partner, every emitted
pair is a mutual couple and the emitted pairs cover each partnered agent
exactly once (so each couple is emitted exactly once); and a table with a
dangling `partner_id` — which `load_population` happily loads, validating no
invariants — makes couple extraction fail instead of skipping the agent. -/
theorem couple_extraction_spec :
    (∀ (population : List Agent), RefIntegrity population →
      (get_all_couples population).isSome = true) ∧
    (∀ (population : List Agent) (cs : List (Agent × Agent)),
      NodupIds population → Symm population → NoSelfPartner population →
      (∀ p ∈ population, p.id ≠ -1) →
      get_all_couples population = some cs →
      (((cs.map (fun mw => [mw.1, mw.2])).flatten).Perm
        (population.filter (fun p => p.partner_id ≠ -1)) ∧
       ∀ mw ∈ cs, mw.2.id = mw.1.partner_id ∧ mw.2.partner_id = mw.1.id)) ∧
    (load_population
        ("id,sex,age,alive,health,fertility,partner_id,children_count\n0,M,33,1,73,1,7,0\n").data =
      some [⟨0, "M", 33, 1, 73, 1, 7, 0⟩] ∧
     get_all_couples [⟨0, "M", 33, 1, 73, 1, 7, 0⟩] = none) := by
  refine ⟨?_, ?_, by decide, by decide⟩
  · intro population hRI
    rcases getAllCouplesAux_isSome population hRI population []
      (fun a ha => ha) with ⟨cs, hcs⟩
    unfold get_all_couples
    rw [hcs]
    rfl
  · intro population cs hN hS hNS hIds hcs
    constructor
    · have hperm := getAllCouplesAux_perm population hN hS hNS hIds population
        [] cs (List.Sublist.refl population)
        (fun a ha hap _ => ha)
        (fun a _ b _ _ _ => by simp)
        hcs
      refine hperm.trans ?_
      rw [List.filter_congr (fun x _ => ?_)]
      simp
    · exact getAllCouplesAux_mutual population hN hS population [] cs
        (fun a ha => ha) hcs

/-- Witness for C10 (amended) at a concrete input: on a two-agent mutual
couple the extraction is total. -/
theorem couple_extraction_spec_witness :
    (get_all_couples [⟨1, "M", 30, 1, 70, 1, 2, 0⟩,
      ⟨2, "F", 30, 1, 70, 1, 1, 0⟩]).isSome = true :=
  couple_extraction_spec.1
    [⟨1, "M", 30, 1, 70, 1, 2, 0⟩, ⟨2, "F", 30, 1, 70, 1, 1, 0⟩]
    (by unfold RefIntegrity; decide)

/-! ## C9: decimal formatting and parsing -/

lemma digitChar_spec (d : Nat) (h : d < 10) :
    (digitChar d).isDigit = true ∧ (digitChar d).toNat - 48 = d := by
  interval_cases d <;> exact ⟨by decide, by decide⟩

lemma not_comma_of_digit {c : Char} (h : c.isDigit = true) : c ≠ ',' := by
  intro hh
  rw [hh] at h
  exact absurd h (by decide)

lemma not_newline_of_digit {c : Char} (h : c.isDigit = true) : c ≠ '\n' := by
  intro hh
  rw [hh] at h
  exact absurd h (by decide)

lemma not_dash_of_digit {c : Char} (h : c.isDigit = true) : c ≠ '-' := by
  intro hh
  rw [hh] at h
  exact absurd h (by decide)

lemma not_ws_of_digit {c : Char} (h : c.isDigit = true) :
    c.isWhitespace = false := by
  revert h
  unfold Char.isDigit Char.isWhitespace
  intro h
  by_cases h1 : c = ' '
  · rw [h1] at h
    exact absurd h (by decide)
  · by_cases h2 : c = '\t'
    · rw [h2] at h
      exact absurd h (by decide)
    · by_cases h3 : c = '\r'
      · rw [h3] at h
        exact absurd h (by decide)
      · by_cases h4 : c = '\n'
        · rw [h4] at h
          exact absurd h (by decide)
        · simp [h1, h2, h3, h4]

lemma natToChars_base {n : Nat} (h : n < 10) : natToChars n = [digitChar n] := by
  unfold natToChars
  rw [dif_pos h]

lemma natToChars_step {n : Nat} (h : ¬n < 10) :
    natToChars n = natToChars (n / 10) ++ [digitChar (n % 10)] := by
  conv_lhs => unfold natToChars
  rw [dif_neg h]

lemma natToChars_spec (n : Nat) :
    natToChars n ≠ [] ∧ (natToChars n).all Char.isDigit = true ∧
      digitsVal (natToChars n) = n := by
  induction n using Nat.strong_induction_on with
  | _ n ih =>
    by_cases h : n < 10
    · rw [natToChars_base h]
      obtain ⟨hd, hv⟩ := digitChar_spec n h
      refine ⟨by simp, by simp [hd], ?_⟩
      unfold digitsVal
      simp [hv]
    · rw [natToChars_step h]
      have hdiv : n / 10 < n := Nat.div_lt_self (by omega) (by omega)
      obtain ⟨ih1, ih2, ih3⟩ := ih (n / 10) hdiv
      obtain ⟨hd, hv⟩ := digitChar_spec (n % 10) (Nat.mod_lt n (by omega))
      refine ⟨by simp, ?_, ?_⟩
      · rw [List.all_append]
        simp [ih2, hd]
      · unfold digitsVal
        rw [List.foldl_append]
        have : List.foldl (fun a c => a * 10 + (c.toNat - 48)) 0
            (natToChars (n / 10)) = n / 10 := ih3
        rw [this]
        simp only [List.foldl_cons, List.foldl_nil]
        rw [hv]
        omega

lemma natFromChars_natToChars (n : Nat) :
    natFromChars (natToChars n) = some n := by
  obtain ⟨h1, h2, h3⟩ := natToChars_spec n
  unfold natFromChars
  rw [if_pos ⟨h1, h2⟩, h3]

lemma natToChars_head_digit (n : Nat) :
    ∃ c t, natToChars n = c :: t ∧ c.isDigit = true := by
  obtain ⟨h1, h2, _⟩ := natToChars_spec n
  cases hn : natToChars n with
  | nil => exact absurd hn h1
  | cons c t =>
    refine ⟨c, t, rfl, ?_⟩
    rw [hn, List.all_cons, Bool.and_eq_true] at h2
    exact h2.1

lemma pyInt_intToChars (i : Int) : pyInt (intToChars i) = some i := by
  unfold intToChars
  by_cases h : i < 0
  · rw [if_pos h]
    unfold pyInt
    dsimp only
    rw [if_pos rfl, natFromChars_natToChars]
    simp only [Option.map_some']
    congr 1
    rw [Int.ofNat_eq_natCast]
    omega
  · rw [if_neg h]
    rcases natToChars_head_digit i.natAbs with ⟨c, t, hct, hcd⟩
    rw [hct]
    unfold pyInt
    dsimp only
    rw [if_neg (not_dash_of_digit hcd), ← hct, natFromChars_natToChars]
    simp only [Option.map_some']
    congr 1
    rw [Int.ofNat_eq_natCast]
    omega

lemma mem_intToChars {c : Char} {i : Int} (h : c ∈ intToChars i) :
    c = '-' ∨ c.isDigit = true := by
  unfold intToChars at h
  have hdig : ∀ x ∈ natToChars i.natAbs, x.isDigit = true := by
    intro x hx
    have := (natToChars_spec i.natAbs).2.1
    exact List.all_eq_true.1 this x hx
  by_cases hi : i < 0
  · rw [if_pos hi] at h
    rcases List.mem_cons.1 h with h | h
    · exact Or.inl h
    · exact Or.inr (hdig c h)
  · rw [if_neg hi] at h
    exact Or.inr (hdig c h)

/-! ## C9: splitting and stripping -/

lemma splitSep_ne_nil (sep : Char) (cs : List Char) : splitSep sep cs ≠ [] := by
  cases cs with
  | nil => simp [splitSep]
  | cons c t =>
    unfold splitSep
    by_cases h : c = sep
    · simp [h]
    · rw [if_neg h]
      cases splitSep sep t <;> simp

lemma splitSep_no_sep (sep : Char) (xs : List Char) (h : sep ∉ xs) :
    splitSep sep xs = [xs] := by
  induction xs with
  | nil => rfl
  | cons c t ih =>
    unfold splitSep
    have hc : ¬c = sep := fun hh => h (by rw [hh]; exact List.mem_cons_self _ _)
    rw [if_neg hc, ih (fun hh => h (List.mem_cons_of_mem c hh))]

lemma splitSep_append (sep : Char) (xs ys : List Char) (h : sep ∉ xs) :
    splitSep sep (xs ++ sep :: ys) = xs :: splitSep sep ys := by
  induction xs with
  | nil => simp [splitSep]
  | cons c t ih =>
    have hc : ¬c = sep := fun hh => h (by rw [hh]; exact List.mem_cons_self _ _)
    have ht := ih (fun hh => h (List.mem_cons_of_mem c hh))
    show splitSep sep (c :: (t ++ sep :: ys)) = (c :: t) :: splitSep sep ys
    conv_lhs => unfold splitSep
    rw [if_neg hc, ht]

lemma dropWhile_eq_self_of_none {p : Char → Bool} {cs : List Char}
    (h : ∀ c ∈ cs, p c = false) : cs.dropWhile p = cs := by
  cases cs with
  | nil => rfl
  | cons c t =>
    rw [List.dropWhile_cons_of_neg]
    rw [h c (List.mem_cons_self c t)]
    simp

lemma pyStrip_eq_self {cs : List Char}
    (h : ∀ c ∈ cs, c.isWhitespace = false) : pyStrip cs = cs := by
  unfold pyStrip
  rw [dropWhile_eq_self_of_none h,
    dropWhile_eq_self_of_none (fun c hc => h c (List.mem_reverse.1 hc)),
    List.reverse_reverse]

/-! ## C9: the saved line -/

lemma string_mk_data (s : String) : String.mk s.data = s := rfl

lemma saveLine_chars {a : Agent} (hsex : a.sex = "M" ∨ a.sex = "F") :
    ∀ c ∈ saveLine a,
      c = ',' ∨ c = '-' ∨ c.isDigit = true ∨ c = 'M' ∨ c = 'F' := by
  intro c h
  have hsd : a.sex.data = ['M'] ∨ a.sex.data = ['F'] := by
    rcases hsex with hs | hs <;> rw [hs] <;> simp
  unfold saveLine at h
  simp only [List.mem_append, List.mem_cons] at h
  have hint : ∀ (i : Int), c ∈ intToChars i →
      c = ',' ∨ c = '-' ∨ c.isDigit = true ∨ c = 'M' ∨ c = 'F' := by
    intro i hi
    rcases mem_intToChars hi with hh | hh
    · exact Or.inr (Or.inl hh)
    · exact Or.inr (Or.inr (Or.inl hh))
  have hsex2 : c ∈ a.sex.data →
      c = ',' ∨ c = '-' ∨ c.isDigit = true ∨ c = 'M' ∨ c = 'F' := by
    intro hs
    rcases hsd with hd | hd <;> rw [hd] at hs <;> simp at hs <;> subst hs
    · exact Or.inr (Or.inr (Or.inr (Or.inl rfl)))
    · exact Or.inr (Or.inr (Or.inr (Or.inr rfl)))
  rcases h with h | h | h | h | h | h | h | h | h | h | h | h | h | h | h
  · exact hint _ h
  · exact Or.inl h
  · exact hsex2 h
  · exact Or.inl h
  · exact hint _ h
  · exact Or.inl h
  · exact hint _ h
  · exact Or.inl h
  · exact hint _ h
  · exact Or.inl h
  · exact hint _ h
  · exact Or.inl h
  · exact hint _ h
  · exact Or.inl h
  · exact hint _ h

lemma saveLine_no_newline {a : Agent} (hsex : a.sex = "M" ∨ a.sex = "F") :
    '\n' ∉ saveLine a := by
  intro h
  rcases saveLine_chars hsex '\n' h with hh | hh | hh | hh | hh <;>
    exact absurd hh (by decide)

lemma saveLine_no_ws {a : Agent} (hsex : a.sex = "M" ∨ a.sex = "F") :
    ∀ c ∈ saveLine a, c.isWhitespace = false := by
  intro c h
  rcases saveLine_chars hsex c h with hh | hh | hh | hh | hh
  · rw [hh]
    decide
  · rw [hh]
    decide
  · exact not_ws_of_digit hh
  · rw [hh]
    decide
  · rw [hh]
    decide

lemma intToChars_ne_nil (i : Int) : intToChars i ≠ [] := by
  unfold intToChars
  split_ifs
  · simp
  · exact (natToChars_spec i.natAbs).1

lemma saveLine_ne_nil (a : Agent) : saveLine a ≠ [] := by
  unfold saveLine
  intro h
  rw [List.append_eq_nil] at h
  exact intToChars_ne_nil a.id h.1

lemma comma_not_mem_intToChars (i : Int) : ',' ∉ intToChars i := by
  intro h
  rcases mem_intToChars h with hh | hh <;> exact absurd hh (by decide)

lemma splitSep_saveLine {a : Agent} (hsex : a.sex = "M" ∨ a.sex = "F") :
    splitSep ',' (saveLine a) =
      [intToChars a.id, a.sex.data, intToChars a.age, intToChars a.alive,
        intToChars a.health, intToChars a.fertility, intToChars a.partner_id,
        intToChars a.children_count] := by
  have hns : ',' ∉ a.sex.data := by
    rcases hsex with hs | hs <;> rw [hs] <;> decide
  unfold saveLine
  rw [splitSep_append _ _ _ (comma_not_mem_intToChars _),
    splitSep_append _ _ _ hns,
    splitSep_append _ _ _ (comma_not_mem_intToChars _),
    splitSep_append _ _ _ (comma_not_mem_intToChars _),
    splitSep_append _ _ _ (comma_not_mem_intToChars _),
    splitSep_append _ _ _ (comma_not_mem_intToChars _),
    splitSep_append _ _ _ (comma_not_mem_intToChars _),
    splitSep_no_sep _ _ (comma_not_mem_intToChars _)]

lemma parseLine_saveLine {a : Agent} (hsex : a.sex = "M" ∨ a.sex = "F") :
    parseLine (saveLine a) = some a := by
  unfold parseLine
  rw [splitSep_saveLine hsex]
  rw [if_pos (by simp)]
  simp only [List.getD_cons_zero, List.getD_cons_succ]
  rw [pyInt_intToChars, pyInt_intToChars, pyInt_intToChars, pyInt_intToChars,
    pyInt_intToChars, pyInt_intToChars, pyInt_intToChars]

lemma loadLines_save (T : List Agent)
    (hsex : ∀ a ∈ T, a.sex = "M" ∨ a.sex = "F") :
    loadLines (splitSep '\n' ((T.map (fun p => saveLine p ++ ['\n'])).flatten)) =
      some T := by
  induction T with
  | nil => rfl
  | cons a t ih =>
    have hsa := hsex a (List.mem_cons_self a t)
    have hflat : ((a :: t).map (fun p => saveLine p ++ ['\n'])).flatten =
        saveLine a ++ '\n' :: (t.map (fun p => saveLine p ++ ['\n'])).flatten := by
      simp [List.append_assoc]
    rw [hflat, splitSep_append _ _ _ (saveLine_no_newline hsa)]
    unfold loadLines
    rw [pyStrip_eq_self (saveLine_no_ws hsa)]
    rw [if_neg (saveLine_ne_nil a)]
    rw [parseLine_saveLine hsa,
      ih (fun b hb => hsex b (List.mem_cons_of_mem a hb))]

/-- C9: for every valid table (each agent's sex is M or F; the numeric
fields are ints, written literally with booleans as 0/1 and a missing
partner as -1), the persistence round trip is the identity:
`load_population` of `save_population T` reproduces `T` field for field, so
saving the reloaded table writes the identical file. -/
theorem save_load_roundtrip (T : List Agent)
    (hsex : ∀ a ∈ T, a.sex = "M" ∨ a.sex = "F") :
    load_population (save_population T) = some T ∧
    save_population ((load_population (save_population T)).getD []) =
      save_population T := by
  have h1 : load_population (save_population T) = some T := by
    unfold load_population save_population
    rw [splitSep_append _ _ _ (by decide : '\n' ∉ headerChars)]
    simp only [List.drop_succ_cons, List.drop_zero]
    exact loadLines_save T hsex
  refine ⟨h1, ?_⟩
  rw [h1]
  rfl

/-- Witness for C9 at a concrete input: a two-agent table (including a
partnered pair and a dead agent) survives the round trip byte-for-byte. -/
theorem save_load_roundtrip_witness :
    load_population (save_population
      [⟨0, "M", 33, 1, 73, 1, 8, 0⟩, ⟨8, "F", 30, 0, 80, 1, 0, 2⟩]) =
      some [⟨0, "M", 33, 1, 73, 1, 8, 0⟩, ⟨8, "F", 30, 0, 80, 1, 0, 2⟩] :=
  (save_load_roundtrip
    [⟨0, "M", 33, 1, 73, 1, 8, 0⟩, ⟨8, "F", 30, 0, 80, 1, 0, 2⟩]
    (by decide)).1

/-! ## C4 -/

/-- C4 counterexample: a snapshot with a non-coercible `age` field ("abc")
does make `load_population` fail, but the failure is NOT fatal to the
caller: `main` wraps the load in a bare `except:`, so it substitutes a
freshly synthesized initial population — exactly the fallback the claim says
is reserved for a missing or empty snapshot. -/
theorem malformed_record_counterexample :
    load_population
      ("id,sex,age,alive,health,fertility,partner_id,children_count\n0,M,abc,1,73,1,-1,0\n").data =
      none ∧
    loadOrInit
      (some ("id,sex,age,alive,health,fertility,partner_id,children_count\n0,M,abc,1,73,1,-1,0\n").data)
      ⟨[], [], []⟩ =
      generate_initial_population ⟨[], [], []⟩ := by
  decide

/-- C4 (amended): a record with too few fields or a non-coercible value
makes `load_population` fail with no partial recovery (a good row followed
by a bad row loads nothing rather than the good prefix), while extra fields
beyond the eighth are silently ignored; but the failure is not surfaced:
`main`'s bare `except:` answers any load failure by substituting a freshly
generated initial population, the same fallback used for a missing or empty
snapshot. -/
theorem malformed_record_spec :
    (∀ (s : List Char) (r : RandState), load_population s = none →
      loadOrInit (some s) r = generate_initial_population r) ∧
    load_population
      ("id,sex,age,alive,health,fertility,partner_id,children_count\n0,M,33,1,73,1,-1,0\nX,M,33,1,73,1,-1,0\n").data =
      none ∧
    load_population
      ("id,sex,age,alive,health,fertility,partner_id,children_count\n0,M,33,1\n").data =
      none ∧
    load_population
      ("id,sex,age,alive,health,fertility,partner_id,children_count\n0,M,33,1,73,1,-1,0,99,EXTRA\n").data =
      some [⟨0, "M", 33, 1, 73, 1, -1, 0⟩] := by
  refine ⟨?_, by decide, by decide, by decide⟩
  intro s r h
  unfold loadOrInit
  dsimp only
  rw [h]

/-- Witness for C4 (amended) at a concrete input: a load failure on a
too-short record is answered with the generated initial population. -/
theorem malformed_record_spec_witness :
    loadOrInit
      (some ("id,sex,age,alive,health,fertility,partner_id,children_count\n0,M,33,1\n").data)
      ⟨[5], [3, 9], []⟩ =
      generate_initial_population ⟨[5], [3, 9], []⟩ :=
  malformed_record_spec.1 _ ⟨[5], [3, 9], []⟩ (by decide)
